import Mathlib

/-!
Shallow embedding of `scripts/generate.js` (three script variants appear in the
repository: V1 = the `node-fetch` based generator, V2 = the single-page
`https.get` generator, V3 = the paginated `https.get` generator producing both
`all_test.html` and `featured_workshops.html`).

Network interaction is modelled by oracles: a page oracle
`Nat → Except String (JsonResp α)` for the listing endpoint (an `.error` is a
rejected promise: transport or JSON-parse failure; `.ok (.obj v)` is a
successful parse of a non-array body, e.g. the JSON object body of an error
response that variant 1 never status-checks), and per-repository oracles of
type `String → FetchOutcome _` distinguishing transport rejection, a non-2xx
status, and a successful JSON body.  Base64 decoding of README content is
abstracted: the oracle carries the decoded text.  `console.warn` /
`console.error` output and `fs.writeFileSync` calls are reified as lists in
the run result; `process.exit(1)` is reified as `err ≠ none`.
-/

namespace SiteGen

/-- A parsed JSON response body: either an array of items or some non-array
value (`obj`), whose `length` property is `undefined` in JS. -/
inductive JsonResp (α : Type) where
  | arr (xs : List α)
  | obj (v : α)
deriving DecidableEq

/-- JS `data.length === 0`: for a non-array, `undefined === 0` is `false`. -/
def lengthIsZero : JsonResp α → Bool
  | .arr xs => xs.isEmpty
  | .obj _ => false

/-- JS `fetched.length === 100`: for a non-array, `undefined === 100` is `false`. -/
def lengthIs100 : JsonResp α → Bool
  | .arr xs => xs.length == 100
  | .obj _ => false

/-- JS `acc.concat(data)`: `Array.prototype.concat` appends a non-array
argument as a single element. -/
def jsConcat (acc : List α) : JsonResp α → List α
  | .arr xs => acc ++ xs
  | .obj v => acc ++ [v]

/-- Variant 1 `fetchAllRepos` loop (generate.js lines 13-27): `while (true)`
requesting page after page, breaking only when `data.length === 0`.  `fuel`
bounds the number of iterations we are willing to unfold (`none` = the loop
has not terminated within `fuel` requests).  The returned pair carries the
accumulated repos together with the number of pages that were requested. -/
def fetchAllReposV1Go (pages : Nat → Except String (JsonResp α)) :
    Nat → Nat → List α → Option (Except String (List α × Nat))
  | 0, _, _ => none
  | fuel+1, page, acc =>
    match pages page with
    | .error e => some (.error e)
    | .ok data =>
      if lengthIsZero data then some (.ok (acc, page))
      else fetchAllReposV1Go pages fuel (page+1) (jsConcat acc data)

/-- Variant 1 `fetchAllRepos`, starting at page 1 with an empty accumulator. -/
def fetchAllReposV1 (pages : Nat → Except String (JsonResp α)) (fuel : Nat) :
    Option (Except String (List α × Nat)) :=
  fetchAllReposV1Go pages fuel 1 []

/-- Variant 3 `fetchAllRepos` loop (generate.js lines 352-369): a `do`/`while`
that concatenates the fetched page and keeps going exactly while
`fetched.length === 100`.  Same fuel/result convention as the V1 loop. -/
def fetchAllReposV3Go (pages : Nat → Except String (JsonResp α)) :
    Nat → Nat → List α → Option (Except String (List α × Nat))
  | 0, _, _ => none
  | fuel+1, page, acc =>
    match pages page with
    | .error e => some (.error e)
    | .ok fetched =>
      if lengthIs100 fetched then fetchAllReposV3Go pages fuel (page+1) (jsConcat acc fetched)
      else some (.ok (jsConcat acc fetched, page))

/-- Variant 3 `fetchAllRepos`, starting at page 1 with an empty accumulator. -/
def fetchAllReposV3 (pages : Nat → Except String (JsonResp α)) (fuel : Nat) :
    Option (Except String (List α × Nat)) :=
  fetchAllReposV3Go pages fuel 1 []

/-! ## JS string helpers -/

/-- The characters matched by JS `\s` (and trimmed by `String.prototype.trim`):
ASCII whitespace, NBSP, the Unicode space separators, line/paragraph
separators and the BOM. -/
def isJsWhitespace (c : Char) : Bool :=
  ([0x9, 0xA, 0xB, 0xC, 0xD, 0x20, 0xA0, 0x1680,
    0x2000, 0x2001, 0x2002, 0x2003, 0x2004, 0x2005, 0x2006, 0x2007,
    0x2008, 0x2009, 0x200A, 0x2028, 0x2029, 0x202F, 0x205F, 0x3000,
    0xFEFF] : List UInt32).contains c.val

/-- JS `String.prototype.trim`. -/
def jsTrim (s : String) : String :=
  String.mk (((s.data.dropWhile isJsWhitespace).reverse.dropWhile isJsWhitespace).reverse)

/-- Strip one carriage return from the head of a reversed line accumulator. -/
def dropCRrev : List Char → List Char
  | '\r' :: t => t
  | l => l

/-- Worker for `splitLines`: splits at each newline, removing an immediately
preceding carriage return (a piece that ends the string keeps a trailing
carriage return, since the regex only matches when a newline follows). -/
def splitLinesGo : List Char → List Char → List String
  | [], cur => [String.mk cur.reverse]
  | c :: rest, cur =>
    if c = '\n' then String.mk (dropCRrev cur).reverse :: splitLinesGo rest []
    else splitLinesGo rest (c :: cur)

/-- JS `readme.split(/\r?\n/)`. -/
def splitLines (s : String) : List String :=
  splitLinesGo s.data []

/-- JS `String.prototype.startsWith`: a prefix test on the characters. -/
def strStartsWith (s pre : String) : Bool :=
  pre.data.isPrefixOf s.data

/-- JS `line.replace(/^#+\s*/, '').trim()` for a line that starts with `#`:
drop the leading run of `#`, then the following whitespace run, then trim. -/
def stripHeadingMarker (line : String) : String :=
  jsTrim (String.mk ((line.data.dropWhile (fun c => c = '#')).dropWhile isJsWhitespace))

/-- Variant 3: `line.replace(/^Description:\s*/, '').trim()` for a line that
starts with the 12-character literal `Description:`. -/
def stripDescrV3 (line : String) : String :=
  jsTrim (String.mk ((line.data.drop 12).dropWhile isJsWhitespace))

/-- Variant 1: `line.replace("Description:", "").trim()` for a line that
starts with the literal (the first occurrence is at position 0). -/
def stripDescrV1 (line : String) : String :=
  jsTrim (String.mk (line.data.drop 12))

/-- Variant 3 `extractTitleAndBlurb` scan (generate.js lines 388-405): the
accumulators start as the empty string; a falsy (empty) accumulator is
(re)assigned from a marker line; the loop breaks once both are truthy. -/
def extractGoV3 : List String → String → String → String × String
  | [], title, blurb => (title, blurb)
  | line :: rest, title, blurb =>
    let title' := if title == "" && strStartsWith line "#" then stripHeadingMarker line else title
    let blurb' := if blurb == "" && strStartsWith line "Description:" then stripDescrV3 line else blurb
    if title' != "" && blurb' != "" then (title', blurb')
    else extractGoV3 rest title' blurb'

/-- Variant 3 `extractTitleAndBlurb`. -/
def extractTitleAndBlurbV3 (readmeText : String) : String × String :=
  extractGoV3 (splitLines readmeText) "" ""

/-- JS truthiness of a nullable string (`null`/`undefined` = `none`). -/
def jsTruthyOpt : Option String → Bool
  | none => false
  | some s => s != ""

/-- Variant 1 `extractTitleAndBlurb` scan (generate.js lines 54-71): the
accumulators start as `null`; the `!title` / `!blurb` guards also fire on an
assigned-but-empty string. -/
def extractGoV1 : List String → Option String → Option String → Option String × Option String
  | [], t, b => (t, b)
  | line :: rest, t, b =>
    let t' := if !jsTruthyOpt t && strStartsWith line "#" then some (stripHeadingMarker line) else t
    let b' := if !jsTruthyOpt b && strStartsWith line "Description:" then some (stripDescrV1 line) else b
    if jsTruthyOpt t' && jsTruthyOpt b' then (t', b')
    else extractGoV1 rest t' b'

/-- Variant 1 `extractTitleAndBlurb`, including the `if (!readme) return
{title: null, blurb: null}` guard (the readme argument is always a string). -/
def extractTitleAndBlurbV1 (readme : String) : Option String × Option String :=
  if readme == "" then (none, none)
  else extractGoV1 (splitLines readme) none none

/-- First hit of an optional-valued marker function over the lines, in order. -/
def firstHit (mark : String → Option String) : List String → Option String
  | [] => none
  | l :: ls =>
    match mark l with
    | some v => some v
    | none => firstHit mark ls

/-- A heading line whose stripped text is non-empty (the only kind that can
permanently set the `title` accumulator). -/
def headingHit (l : String) : Option String :=
  if strStartsWith l "#" then
    let v := stripHeadingMarker l
    if v == "" then none else some v
  else none

/-- A `Description:` line whose stripped text is non-empty (variant 3). -/
def descrHitV3 (l : String) : Option String :=
  if strStartsWith l "Description:" then
    let v := stripDescrV3 l
    if v == "" then none else some v
  else none

/-- A `Description:` line whose stripped text is non-empty (variant 1). -/
def descrHitV1 (l : String) : Option String :=
  if strStartsWith l "Description:" then
    let v := stripDescrV1 l
    if v == "" then none else some v
  else none

/-- Extraction as claim C2 words it: the title is the first line beginning
with `#` (stripped), the blurb is the first line beginning with
`Description:` (stripped), independent of whether the stripped text is
empty.  Stated for comparison with `extractTitleAndBlurbV3`. -/
def claimExtract (readme : String) : String × String :=
  ((((splitLines readme).find? (fun l => strStartsWith l "#")).map stripHeadingMarker).getD "",
   (((splitLines readme).find? (fun l => strStartsWith l "Description:")).map stripDescrV3).getD "")

/-- Value of a variant 1 scan accumulator at the end of the loop: the first
marker line whose stripped text is non-empty wins; otherwise, if marker lines
exist but all strip to the empty text, the accumulator holds the empty
string; with no marker line at all it stays `null`. -/
def v1ScanValue (mark : String → Option String) (has : String → Bool) (lines : List String) :
    Option String :=
  match firstHit mark lines with
  | some v => some v
  | none => if lines.any has then some "" else none

/-! ## Data model and per-repository fetches -/

/-- A repository record as returned by the listing endpoint (`description` is
`none` when the API field is `null` or absent). -/
structure RawRepo where
  name : String
  description : Option String
  archived : Bool
deriving DecidableEq

/-- Body of the topics endpoint; `names` is `none` when the field is absent. -/
structure TopicsResp where
  names : Option (List String)
deriving DecidableEq

/-- Body of the readme endpoint; `content` carries the base64-decoded text
(decoding is abstracted into the oracle), `none` when the field is absent. -/
structure ReadmeResp where
  content : Option String
deriving DecidableEq

/-- Outcome of one HTTP request: transport-level rejection, a response with a
non-2xx status, or a successfully parsed JSON body. -/
inductive FetchOutcome (α : Type) where
  | reject (e : String)
  | notOk (status : Nat)
  | ok (v : α)
deriving DecidableEq

/-- The organisation name used by variants 2 and 3. -/
def ORG : String := "ubc-library-rc"

/-- The placeholder organisation name used by variant 1. -/
def ORGV1 : String := "your-org-name"

def topicsUrl (name : String) : String :=
  "https://api.github.com/repos/" ++ ORG ++ "/" ++ name ++ "/topics"

def readmeUrl (name : String) : String :=
  "https://api.github.com/repos/" ++ ORG ++ "/" ++ name ++ "/readme"

/-- Variants 2 and 3 `fetchJSON`: resolves with the parsed body, rejects on
transport failure and on `statusCode >= 400` with the message
`HTTP status: url`. -/
def fetchJSONAt (o : FetchOutcome α) (url : String) : Except String α :=
  match o with
  | .reject e => .error e
  | .notOk st => .error ("HTTP " ++ toString st ++ ": " ++ url)
  | .ok v => .ok v

/-- Variant 3 `fetchRepoTopics` (generate.js lines 371-374): a bare
`fetchJSON`, so any failure propagates to the caller. -/
def fetchRepoTopicsV3 (topicsOf : String → FetchOutcome TopicsResp) (name : String) :
    Except String TopicsResp :=
  fetchJSONAt (topicsOf name) (topicsUrl name)

def readmeWarn (name e : String) : String :=
  "Could not fetch README for " ++ name ++ ": " ++ e

/-- Variant 3 `fetchRepoReadme` (generate.js lines 376-386): any failure
(rejection, non-2xx, or a missing `content` field, which makes
`Buffer.from(undefined)` throw inside the `try`) is caught, logged with
`console.warn`, and turned into the empty string.  Returns the readme text
together with the emitted warnings. -/
def fetchRepoReadmeV3 (readmeOf : String → FetchOutcome ReadmeResp) (name : String) :
    String × List String :=
  match fetchJSONAt (readmeOf name) (readmeUrl name) with
  | .error e => ("", [readmeWarn name e])
  | .ok r =>
    match r.content with
    | some s => (s, [])
    | none => ("", [readmeWarn name "TypeError"])

/-- Variant 1 `fetchRepoTopics` (generate.js lines 29-41): `node-fetch` does
not reject on HTTP error statuses, so a non-2xx response is turned into
`{ names: [] }` by the `!res.ok` check, silently; a transport rejection
propagates. -/
def fetchRepoTopicsV1 (topicsOf : String → FetchOutcome TopicsResp) (name : String) :
    Except String TopicsResp :=
  match topicsOf name with
  | .reject e => .error e
  | .notOk _ => .ok { names := some [] }
  | .ok v => .ok v

/-- Variant 1 `fetchRepoReadme` (generate.js lines 43-52): non-2xx or a falsy
`content` field yield the empty string; a transport rejection propagates. -/
def fetchRepoReadmeV1 (readmeOf : String → FetchOutcome ReadmeResp) (name : String) :
    Except String String :=
  match readmeOf name with
  | .reject e => .error e
  | .notOk _ => .ok ""
  | .ok r => .ok (r.content.getD "")

/-! ## Enriched records -/

/-- JS `b || c` for a nullable string `b` and string `c`. -/
def jsOrOS (b : Option String) (c : String) : String :=
  match b with
  | some s => if s != "" then s else c
  | none => c

/-- JS `a || b || c` where `a` is a string (variant 3 title fallback). -/
def jsOrSOS (a : String) (b : Option String) (c : String) : String :=
  if a != "" then a else jsOrOS b c

/-- JS `a || b || c` where `a` is a nullable string (variant 1 title fallback). -/
def jsOrOOS (a : Option String) (b : Option String) (c : String) : String :=
  match a with
  | some s => if s != "" then s else jsOrOS b c
  | none => jsOrOS b c

/-- Variant 1 enriched record (generate.js lines 90-97). -/
structure EnrichedV1 where
  name : String
  title : String
  blurb : Option String
  url : String
  archived : Bool
  topics : List String
deriving DecidableEq

/-- Variant 1 `enrichedRepo` construction. -/
def mkEnrichedV1 (repo : RawRepo) (t : TopicsResp) (readme : String) : EnrichedV1 :=
  let tb := extractTitleAndBlurbV1 readme
  { name := repo.name
    title := jsOrOOS tb.1 repo.description repo.name
    blurb := tb.2
    url := "https://" ++ ORGV1 ++ ".github.io/" ++ repo.name ++ "/"
    archived := repo.archived
    topics := t.names.getD [] }

/-- Variants 2 and 3 enriched record for the all-workshops listing
(generate.js lines 246-252 and 453-459): `description` is the known-truthy
repository description. -/
structure WorkRepo where
  name : String
  description : String
  url : String
  archived : Bool
  topics : List String
deriving DecidableEq

def mkWorkRepo (repo : RawRepo) (d : String) (ns : List String) : WorkRepo :=
  { name := repo.name
    description := d
    url := "https://" ++ ORG ++ ".github.io/" ++ repo.name ++ "/"
    archived := repo.archived
    topics := ns }

/-- Variant 3 featured record (generate.js lines 505-512). -/
structure FeaturedRepo where
  name : String
  title : String
  blurb : String
  url : String
  archived : Bool
  topics : List String
deriving DecidableEq

/-- Variant 3 featured record construction: `title || description || name`,
`topics.names || []` (here `ns`, already known to be present). -/
def mkFeaturedV3 (repo : RawRepo) (ns : List String) (readme : String) : FeaturedRepo :=
  let tb := extractTitleAndBlurbV3 readme
  { name := repo.name
    title := jsOrSOS tb.1 repo.description repo.name
    blurb := tb.2
    url := "https://" ++ ORG ++ ".github.io/" ++ repo.name ++ "/"
    archived := repo.archived
    topics := ns }

/-! ## Sorting (Array.prototype.sort with a comparator)

ECMAScript requires `sort` to be stable, and with a consistent comparator the
stable sorted permutation of a list is unique, so any conforming engine
produces the result of the stable insertion sort below.  `localeCompare` is
environment- and locale-dependent; it is modelled as an abstract comparator
parameter `lc`. -/

def insCmp (cmp : α → α → Int) : List α → α → List α
  | [], x => [x]
  | y :: ys, x => if cmp y x ≤ 0 then y :: insCmp cmp ys x else x :: y :: ys

def jsSortBy (cmp : α → α → Int) (l : List α) : List α :=
  l.foldl (insCmp cmp) []

/-- The default (no-comparator) string sort used for `Object.keys(...).sort()`
in variant 1: code-unit lexicographic order.  (Lean compares by code point,
which agrees with UTF-16 code-unit order on the Basic Multilingual Plane;
every key sorted here is an ASCII topic string.) -/
def defaultStrCmp (a b : String) : Int :=
  if a < b then -1 else if b < a then 1 else 0

/-! ## Grouping -/

/-- JS `if (!groups[t]) groups[t] = []; groups[t].push(repo)` on an object
used as an ordered map: an existing key keeps its position, a new key is
appended at the end. -/
def addToGroup (gs : List (String × List α)) (t : String) (r : α) : List (String × List α) :=
  match gs with
  | [] => [(t, [r])]
  | (k, v) :: rest => if k = t then (k, v ++ [r]) :: rest else (k, v) :: addToGroup rest t r

/-- JS `repo.topics.length > 0 ? repo.topics : ["Other"]`. -/
def jsGroupNames (topics : List String) : List String :=
  if topics.length > 0 then topics else ["Other"]

/-- Variant 1 `groupByTopic` (generate.js lines 109-119). -/
def groupByTopic (rs : List EnrichedV1) : List (String × List EnrichedV1) :=
  rs.foldl (fun gs r => (jsGroupNames r.topics).foldl (fun gs t => addToGroup gs t r) gs) []

/-- Lookup of `groups[k]`, defaulting to the empty list. -/
def lookupD (gs : List (String × List α)) (k : String) : List α :=
  (gs.lookup k).getD []

/-- `Object.keys` in insertion order. -/
def keysOf (gs : List (String × List α)) : List String :=
  gs.map Prod.fst

/-- The fixed topic-to-label table of variants 2 and 3, in declaration
order. -/
def TOPIC_LABELS : List (String × String) :=
  [("data", "Data analysis and visualization"),
   ("digital-scholarship", "Digital scholarship"),
   ("geospatial", "Geographic information systems (GIS) and mapping"),
   ("research-data-management", "Research data management")]

def labelFor (t : String) : String :=
  (TOPIC_LABELS.lookup t).getD ""

/-- Fixed-table grouping sorted by description: variant 2 `grouped`
(generate.js lines 258-263) and variant 3 `groupedAll` (lines 466-471),
which share this exact shape. -/
def groupedFixedByDescr (lc : String → String → Int) (rs : List WorkRepo) :
    List (String × List WorkRepo) :=
  TOPIC_LABELS.map (fun p =>
    (p.1, jsSortBy (fun a b => lc a.description b.description)
      (rs.filter (fun r => r.topics.contains p.1))))

/-- Variant 3 `groupedFeatured` (generate.js lines 519-524): fixed table,
sorted by title. -/
def groupedFeaturedV3 (lc : String → String → Int) (rs : List FeaturedRepo) :
    List (String × List FeaturedRepo) :=
  TOPIC_LABELS.map (fun p =>
    (p.1, jsSortBy (fun a b => lc a.title b.title)
      (rs.filter (fun r => r.topics.contains p.1))))

/-! ## Rendering -/

/-- Variant 1 all-repos list item (generate.js lines 130-135). -/
def renderItemV1All (repo : EnrichedV1) : String :=
  let text := repo.title ++ (if repo.archived then " (archived)" else "")
  let cls := if repo.archived then "class=\"archived\"" else ""
  "<li><a " ++ cls ++ " href=\"" ++ repo.url ++
    "\" target=\"_blank\" rel=\"noopener noreferrer\">" ++ text ++ "</a></li>"

/-- Variant 1 featured list item (generate.js lines 160-171). -/
def renderItemV1Feat (repo : EnrichedV1) : String :=
  let text := repo.title ++ (if repo.archived then " (archived)" else "")
  let cls := if repo.archived then "class=\"archived\"" else ""
  let blurbText := if jsTruthyOpt repo.blurb
    then "<p class=\"blurb\">" ++ repo.blurb.getD "" ++ "</p>" else ""
  "<li>\n  <a " ++ cls ++ " href=\"" ++ repo.url ++
    "\" target=\"_blank\" rel=\"noopener noreferrer\">" ++ text ++ "</a>\n  " ++
    blurbText ++ "\n</li>"

/-- Variants 2 and 3 all-workshops list item (generate.js lines 274-277 and
482-485, textually identical code in both variants). -/
def renderItemFixedAll (repo : WorkRepo) : String :=
  let text := repo.description ++ (if repo.archived then " (archived)" else "")
  let cls := if repo.archived then "class=\"archived\"" else ""
  "<li><a " ++ cls ++ " href=\"" ++ repo.url ++
    "\" target=\"_blank\" rel=\"noopener noreferrer\">" ++ text ++ "</a></li>"

/-- Variant 3 featured list item (generate.js lines 528-534). -/
def renderItemV3Feat (repo : FeaturedRepo) : String :=
  let cls := if repo.archived then "class=\"archived\"" else ""
  let blurbText := if repo.blurb != ""
    then "<p class=\"blurb\">" ++ repo.blurb ++ "</p>" else ""
  "<li>\n  <a " ++ cls ++ " href=\"" ++ repo.url ++
    "\" target=\"_blank\" rel=\"noopener noreferrer\">" ++ repo.title ++
    (if repo.archived then " (archived)" else "") ++ "</a>\n  " ++
    blurbText ++ "\n</li>"

/-- Variant 1 sections: `Object.keys(groups).sort()`, one
heading-plus-list fragment per key, joined by blank lines (generate.js lines
127-139 and 157-175; `render` is the per-item template). -/
def sectionsV1 (groups : List (String × List EnrichedV1)) (render : EnrichedV1 → String) :
    String :=
  String.intercalate "\n\n" ((jsSortBy defaultStrCmp (keysOf groups)).map (fun topic =>
    "<h2>" ++ topic ++ "</h2>\n<ul>\n" ++
      String.intercalate "\n" ((lookupD groups topic).map render) ++ "\n</ul>"))

/-- Variants 2 and 3 section fragment for the all-workshops page: an empty
group renders as the empty string (generate.js lines 272-283 and 480-491). -/
def sectionFixedAll (label : String) (repos : List WorkRepo) : String :=
  if repos.length = 0 then ""
  else
    "<section>\n  <h2>" ++ label ++ "</h2>\n  <ul>" ++
      String.intercalate "\n" (repos.map renderItemFixedAll) ++ "</ul>\n</section>"

/-- Variant 3 section fragment for the featured page (generate.js lines
526-540). -/
def sectionFixedFeat (label : String) (repos : List FeaturedRepo) : String :=
  if repos.length = 0 then ""
  else
    "<section>\n  <h2>" ++ label ++ "</h2>\n  <ul>" ++
      String.intercalate "\n" (repos.map renderItemV3Feat) ++ "</ul>\n</section>"

/-- Variant 3 `sectionsAll`. -/
def sectionsAllV3 (lc : String → String → Int) (rs : List WorkRepo) : String :=
  String.intercalate "\n\n" ((groupedFixedByDescr lc rs).map (fun p =>
    sectionFixedAll (labelFor p.1) p.2))

/-- Variant 3 `sectionsFeatured`. -/
def sectionsFeaturedV3 (lc : String → String → Int) (rs : List FeaturedRepo) : String :=
  String.intercalate "\n\n" ((groupedFeaturedV3 lc rs).map (fun p =>
    sectionFixedFeat (labelFor p.1) p.2))

/-- Variant 3 `buildHTMLPage` (generate.js lines 407-435). -/
def buildHTMLPage (sections extraContent : String) : String :=
  "<!DOCTYPE html>
<html lang=\"en\">
<head>
  <meta charset=\"UTF-8\">
  <title>UBC Library Research Commons - Open Educational Materials</title>
  <link rel=\"stylesheet\" href=\"style.css\">
</head>
<body>
  <section>
    <div class=\"header-flex\">
      <div id=\"header-img\">
        <img src=\"images/rc-logo-square.png\" alt=\"UBC Research Commons logo\"/>
      </div>
      <div id=\"header-text\">
        UBC Library Research Commons
      </div>
      <div id=\"header-link\">
        <a href=\"https://github.com/" ++ ORG ++ "/\">github.com/" ++ ORG ++ "</a>
      </div>
    </div>
  </section>
  <h1>Past and present workshops offered by the Research Commons</h1>
  <p>For currently scheduled workshops visit <a href=\"https://researchcommons.library.ubc.ca/events/\">https://researchcommons.library.ubc.ca/events/</a></p>
  " ++ sections ++ "
  " ++ extraContent ++ "
</body>
</html>"

/-- Variant 1 page shell (generate.js lines 141-152 and 177-188; the two
pages differ only in the title and heading text). -/
def htmlShellV1 (titleText : String) (sections : String) : String :=
  "<!DOCTYPE html>
<html>
<head>
  <meta charset=\"utf-8\">
  <title>" ++ titleText ++ "</title>
  <link rel=\"stylesheet\" href=\"style.css\">
</head>
<body>
  <h1>" ++ titleText ++ "</h1>
  " ++ sections ++ "
</body>
</html>"

/-! ## Main routines -/

def skipWarn (name e : String) : String :=
  "Skipping " ++ name ++ ": " ++ e

def skipFeaturedWarn (name e : String) : String :=
  "Skipping featured check for " ++ name ++ ": " ++ e

/-- Variant 3 enrichment loop (generate.js lines 447-464): skip a repository
with a falsy description before any fetch; fetch topics inside `try`, where a
failure is caught, logged, and skips just that repository; keep only
repositories whose topics include `workshop`.  Accumulates the enriched
records, the names for which a topic fetch was issued, and the warnings. -/
def enrichAllV3Go (topicsOf : String → FetchOutcome TopicsResp) :
    List RawRepo → List WorkRepo → List String → List String →
    List WorkRepo × List String × List String
  | [], en, calls, warns => (en, calls, warns)
  | repo :: rest, en, calls, warns =>
    match repo.description with
    | none => enrichAllV3Go topicsOf rest en calls warns
    | some d =>
      if d == "" then enrichAllV3Go topicsOf rest en calls warns
      else
        match fetchRepoTopicsV3 topicsOf repo.name with
        | .error e =>
          enrichAllV3Go topicsOf rest en (calls ++ [repo.name]) (warns ++ [skipWarn repo.name e])
        | .ok t =>
          match t.names with
          | some ns =>
            if ns.contains "workshop" then
              enrichAllV3Go topicsOf rest (en ++ [mkWorkRepo repo d ns]) (calls ++ [repo.name]) warns
            else enrichAllV3Go topicsOf rest en (calls ++ [repo.name]) warns
          | none => enrichAllV3Go topicsOf rest en (calls ++ [repo.name]) warns

def enrichAllV3 (repos : List RawRepo) (topicsOf : String → FetchOutcome TopicsResp) :
    List WorkRepo × List String × List String :=
  enrichAllV3Go topicsOf repos [] [] []

/-- Variant 2 enrichment loop (generate.js lines 242-256): as in variant 3
but with no `workshop` filter (`topics.names || []` is pushed directly). -/
def enrichAllV2Go (topicsOf : String → FetchOutcome TopicsResp) :
    List RawRepo → List WorkRepo → List String → List String →
    List WorkRepo × List String × List String
  | [], en, calls, warns => (en, calls, warns)
  | repo :: rest, en, calls, warns =>
    match repo.description with
    | none => enrichAllV2Go topicsOf rest en calls warns
    | some d =>
      if d == "" then enrichAllV2Go topicsOf rest en calls warns
      else
        match fetchRepoTopicsV3 topicsOf repo.name with
        | .error e =>
          enrichAllV2Go topicsOf rest en (calls ++ [repo.name]) (warns ++ [skipWarn repo.name e])
        | .ok t =>
          enrichAllV2Go topicsOf rest (en ++ [mkWorkRepo repo d (t.names.getD [])])
            (calls ++ [repo.name]) warns

def enrichAllV2 (repos : List RawRepo) (topicsOf : String → FetchOutcome TopicsResp) :
    List WorkRepo × List String × List String :=
  enrichAllV2Go topicsOf repos [] [] []

/-- Variant 3 featured loop (generate.js lines 498-517): topics are fetched
again for every repository (no description filter here); a fetch failure is
caught and logged; a repository tagged both `workshop` and `featured` gets
its readme fetched (failures there are caught inside `fetchRepoReadme`). -/
def featuredLoopV3Go (topicsOf : String → FetchOutcome TopicsResp)
    (readmeOf : String → FetchOutcome ReadmeResp) :
    List RawRepo → List FeaturedRepo → List String → List FeaturedRepo × List String
  | [], fe, warns => (fe, warns)
  | repo :: rest, fe, warns =>
    match fetchRepoTopicsV3 topicsOf repo.name with
    | .error e =>
      featuredLoopV3Go topicsOf readmeOf rest fe (warns ++ [skipFeaturedWarn repo.name e])
    | .ok t =>
      match t.names with
      | none => featuredLoopV3Go topicsOf readmeOf rest fe warns
      | some ns =>
        if ns.contains "workshop" && ns.contains "featured" then
          let rw := fetchRepoReadmeV3 readmeOf repo.name
          featuredLoopV3Go topicsOf readmeOf rest (fe ++ [mkFeaturedV3 repo ns rw.1]) (warns ++ rw.2)
        else featuredLoopV3Go topicsOf readmeOf rest fe warns

def featuredLoopV3 (repos : List RawRepo) (topicsOf : String → FetchOutcome TopicsResp)
    (readmeOf : String → FetchOutcome ReadmeResp) : List FeaturedRepo × List String :=
  featuredLoopV3Go topicsOf readmeOf repos [] []

/-- Observable outcome of one run: the files written (name and content, in
order), the error that escaped `main` if any (`process.exit(1)`), and the
`console.warn` messages. -/
structure RunResult where
  writes : List (String × String)
  err : Option String
  warns : List String
deriving DecidableEq

/-- The optional `non_repo_workshops.html` collaborator file: a read failure
is tolerated with a warning and an empty fragment. -/
def nonRepoRead (f : Except String String) : String × List String :=
  match f with
  | .ok s => (s, [])
  | .error e => ("", ["Could not load non_repo_workshops.html: " ++ e])

/-- Variant 3 `main` (generate.js lines 437-545), over oracles for the
listing result, the per-repository topic and readme endpoints, and the
collaborator file.  A listing failure escapes `main` and is caught by the
top-level handler, which logs it and exits non-zero before anything is
written. -/
def mainV3 (listRes : Except String (List RawRepo))
    (topicsOf : String → FetchOutcome TopicsResp)
    (readmeOf : String → FetchOutcome ReadmeResp)
    (nonRepoFile : Except String String) (lc : String → String → Int) : RunResult :=
  match listRes with
  | .error e => { writes := [], err := some e, warns := [] }
  | .ok repos =>
    let en := enrichAllV3 repos topicsOf
    let nr := nonRepoRead nonRepoFile
    let htmlAll := buildHTMLPage (sectionsAllV3 lc en.1) nr.1
    let fl := featuredLoopV3 repos topicsOf readmeOf
    let htmlFeat := buildHTMLPage (sectionsFeaturedV3 lc fl.1) ""
    { writes := [("all_test.html", htmlAll), ("featured_workshops.html", htmlFeat)]
      err := none
      warns := en.2.2 ++ nr.2 ++ fl.2 }

/-- Variant 1 enrichment loop (generate.js lines 85-104): no `try` around the
per-repository fetches, so a transport rejection of either fetch escapes to
`main`.  Builds the enriched list and the featured sub-list. -/
def enrichLoopV1 (topicsOf : String → FetchOutcome TopicsResp)
    (readmeOf : String → FetchOutcome ReadmeResp) :
    List RawRepo → List EnrichedV1 → List EnrichedV1 →
    Except String (List EnrichedV1 × List EnrichedV1)
  | [], en, fe => .ok (en, fe)
  | repo :: rest, en, fe =>
    match fetchRepoTopicsV1 topicsOf repo.name with
    | .error e => .error e
    | .ok t =>
      match fetchRepoReadmeV1 readmeOf repo.name with
      | .error e => .error e
      | .ok readme =>
        let er := mkEnrichedV1 repo t readme
        enrichLoopV1 topicsOf readmeOf rest (en ++ [er])
          (if er.topics.contains "featured" then fe ++ [er] else fe)

/-- Variant 1 `main` (generate.js lines 77-202): enrich (aborting the whole
run on any escaped rejection), sort both lists by title, group with
`groupByTopic`, render the two pages, then write both files. -/
def mainV1 (listRes : Except String (List RawRepo))
    (topicsOf : String → FetchOutcome TopicsResp)
    (readmeOf : String → FetchOutcome ReadmeResp) (lc : String → String → Int) : RunResult :=
  match listRes with
  | .error e => { writes := [], err := some e, warns := [] }
  | .ok repos =>
    match enrichLoopV1 topicsOf readmeOf repos [] [] with
    | .error e => { writes := [], err := some e, warns := [] }
    | .ok (en, fe) =>
      let enS := jsSortBy (fun a b => lc a.title b.title) en
      let feS := jsSortBy (fun a b => lc a.title b.title) fe
      let htmlAll := htmlShellV1 "All Test Repositories" (sectionsV1 (groupByTopic enS) renderItemV1All)
      let htmlFeat := htmlShellV1 "Featured Workshops" (sectionsV1 (groupByTopic feS) renderItemV1Feat)
      { writes := [("all_test.html", htmlAll), ("featured_workshops.html", htmlFeat)]
        err := none
        warns := [] }

/-! ## Concrete inputs used by witnesses and counterexamples -/

/-- Concrete two-page sequence for the C1 witness: page 1 has 100 items,
page 2 has one item. -/
def c1WitPages : Nat → Except String (JsonResp Nat) :=
  fun p => if p = 1 then .ok (.arr (List.range 100)) else .ok (.arr [5])

def c1WitChunk : Nat → List Nat :=
  fun p => if p = 1 then List.range 100 else [5]

/-- Concrete sequence refuting C1 as stated: page 1 returns a single item
(fewer than 100), page 2 is empty. -/
def c1CexPages : Nat → Except String (JsonResp Nat) :=
  fun p => if p = 1 then .ok (.arr [7]) else .ok (.arr [])

/-- A topic-less enriched record used by the C5 witness. -/
def c5WitRepo : EnrichedV1 :=
  { name := "a", title := "T", blurb := none, url := "u", archived := false, topics := [] }

/-- A concrete consistent comparator standing in for `localeCompare` in
witnesses: code-point lexicographic comparison. -/
def strCmpInt (a b : String) : Int :=
  if a < b then -1 else if b < a then 1 else 0

/-- Concrete enriched records used by the C7 witness. -/
def c7WitRepos : List EnrichedV1 :=
  [{ name := "n1", title := "B", blurb := none, url := "u1", archived := false,
     topics := ["data"] },
   { name := "n2", title := "A", blurb := none, url := "u2", archived := false,
     topics := ["data"] }]

/-- A trivial comparator used by the C6 witness. -/
def c6WitLc : String → String → Int := fun _ _ => 0

/-- A concrete record with no table topic, used by the C6 witness. -/
def c6WitRepo : WorkRepo :=
  { name := "n", description := "D", url := "u", archived := false, topics := ["misc"] }

/-- `pat` occurs contiguously inside `s`. -/
def strContains (s pat : String) : Prop :=
  pat.data <:+: s.data

/-- An archived record used by the C8 witness. -/
def c8WitRepo : EnrichedV1 :=
  { name := "w", title := "W", blurb := none, url := "u", archived := true, topics := [] }

/-! ## Per-repository outcome selectors (used to characterise the loops) -/

/-- What the variant 3 enrichment loop contributes for a single repository:
`none` when it is skipped (falsy description, caught fetch failure, missing
`names`, or no `workshop` topic), `some` of the enriched record otherwise. -/
def enrichSelV3 (topicsOf : String → FetchOutcome TopicsResp) (repo : RawRepo) :
    Option WorkRepo :=
  match repo.description with
  | none => none
  | some d =>
    if d == "" then none
    else
      match fetchRepoTopicsV3 topicsOf repo.name with
      | .error _ => none
      | .ok t =>
        match t.names with
        | some ns => if ns.contains "workshop" then some (mkWorkRepo repo d ns) else none
        | none => none

/-- Same for variant 2, which has no `workshop` filter. -/
def enrichSelV2 (topicsOf : String → FetchOutcome TopicsResp) (repo : RawRepo) :
    Option WorkRepo :=
  match repo.description with
  | none => none
  | some d =>
    if d == "" then none
    else
      match fetchRepoTopicsV3 topicsOf repo.name with
      | .error _ => none
      | .ok t => some (mkWorkRepo repo d (t.names.getD []))

/-- The warning the variant 3 (and variant 2) enrichment loop logs for a
single repository, if any. -/
def skipWarnSelV3 (topicsOf : String → FetchOutcome TopicsResp) (repo : RawRepo) :
    Option String :=
  match repo.description with
  | none => none
  | some d =>
    if d == "" then none
    else
      match fetchRepoTopicsV3 topicsOf repo.name with
      | .error e => some (skipWarn repo.name e)
      | .ok _ => none

/-! ## Concrete inputs for the C3 and C9 witnesses -/

def c9WitRepos : List RawRepo :=
  [{ name := "n", description := some "D", archived := false }]

def c9WitTopics : String → FetchOutcome TopicsResp :=
  fun _ => .ok { names := some ["workshop"] }

def c9WitEnr : WorkRepo :=
  mkWorkRepo { name := "n", description := some "D", archived := false } "D" ["workshop"]

def c3CexRepos : List RawRepo :=
  [{ name := "r1", description := some "D1", archived := false },
   { name := "r2", description := some "D2", archived := false }]

def c3CexTopics : String → FetchOutcome TopicsResp :=
  fun n => if n = "r1" then .reject "boom" else .ok { names := some [] }

def c3CexReadme : String → FetchOutcome ReadmeResp :=
  fun _ => .ok { content := some "" }

def c3CexLc : String → String → Int := fun _ _ => 0

def c3WitRepos : List RawRepo :=
  [{ name := "s1", description := some "E1", archived := false }]

def c3WitTopics : String → FetchOutcome TopicsResp :=
  fun _ => .reject "oops"

/-! # Theorems -/

/-! ## Pagination (claims C1, C10) -/

theorem fetchAllReposV3Go_run {α : Type} (pages : Nat → Except String (JsonResp α))
    (chunk : Nat → List α) (n : Nat) :
    ∀ d p acc fuel, p + d = n →
      (∀ q, p ≤ q → q < n → pages q = .ok (.arr (chunk q)) ∧ (chunk q).length = 100) →
      pages n = .ok (.arr (chunk n)) → (chunk n).length < 100 → d < fuel →
      fetchAllReposV3Go pages fuel p acc =
        some (.ok (acc ++ ((List.range' p (d+1)).map chunk).flatten, n)) := by
  intro d
  induction d with
  | zero =>
    intro p acc fuel hpd _ hlast hshort hfuel
    obtain ⟨f, rfl⟩ : ∃ f, fuel = f + 1 := ⟨fuel - 1, by omega⟩
    have hp : p = n := by omega
    subst hp
    simp only [fetchAllReposV3Go, hlast, lengthIs100, jsConcat]
    have : ((chunk p).length == 100) = false := by
      simp only [beq_eq_false_iff_ne, ne_eq]
      omega
    simp [this]
  | succ d ih =>
    intro p acc fuel hpd hfull hlast hshort hfuel
    obtain ⟨f, rfl⟩ : ∃ f, fuel = f + 1 := ⟨fuel - 1, by omega⟩
    have hp : p < n := by omega
    obtain ⟨hpage, hlen⟩ := hfull p (Nat.le_refl p) hp
    simp only [fetchAllReposV3Go, hpage, lengthIs100, jsConcat, hlen]
    have ih' := ih (p+1) (acc ++ chunk p) f (by omega)
      (fun q hq1 hq2 => hfull q (by omega) hq2) hlast hshort (by omega)
    rw [ih']
    simp [List.range'_succ]

theorem fetchAllReposV3Go_err {α : Type} (pages : Nat → Except String (JsonResp α))
    (chunk : Nat → List α) (k : Nat) (e : String) :
    ∀ d p acc fuel, p + d = k →
      (∀ q, p ≤ q → q < k → pages q = .ok (.arr (chunk q)) ∧ (chunk q).length = 100) →
      pages k = .error e → d < fuel →
      fetchAllReposV3Go pages fuel p acc = some (.error e) := by
  intro d
  induction d with
  | zero =>
    intro p acc fuel hpd _ herr hfuel
    obtain ⟨f, rfl⟩ : ∃ f, fuel = f + 1 := ⟨fuel - 1, by omega⟩
    have hp : p = k := by omega
    subst hp
    simp [fetchAllReposV3Go, herr]
  | succ d ih =>
    intro p acc fuel hpd hfull herr hfuel
    obtain ⟨f, rfl⟩ : ∃ f, fuel = f + 1 := ⟨fuel - 1, by omega⟩
    have hp : p < k := by omega
    obtain ⟨hpage, hlen⟩ := hfull p (Nat.le_refl p) hp
    simp only [fetchAllReposV3Go, hpage, lengthIs100, hlen]
    simp only [beq_self_eq_true, if_true]
    exact ih (p+1) _ f (by omega) (fun q hq1 hq2 => hfull q (by omega) hq2) herr (by omega)

theorem fetchAllReposV1Go_run {α : Type} (pages : Nat → Except String (JsonResp α))
    (chunk : Nat → List α) (n : Nat) :
    ∀ d p acc fuel, p + d = n →
      (∀ q, p ≤ q → q < n → pages q = .ok (.arr (chunk q)) ∧ chunk q ≠ []) →
      pages n = .ok (.arr []) → d < fuel →
      fetchAllReposV1Go pages fuel p acc =
        some (.ok (acc ++ ((List.range' p d).map chunk).flatten, n)) := by
  intro d
  induction d with
  | zero =>
    intro p acc fuel hpd _ hlast hfuel
    obtain ⟨f, rfl⟩ : ∃ f, fuel = f + 1 := ⟨fuel - 1, by omega⟩
    have hp : p = n := by omega
    subst hp
    simp [fetchAllReposV1Go, hlast, lengthIsZero]
  | succ d ih =>
    intro p acc fuel hpd hfull hlast hfuel
    obtain ⟨f, rfl⟩ : ∃ f, fuel = f + 1 := ⟨fuel - 1, by omega⟩
    have hp : p < n := by omega
    obtain ⟨hpage, hne⟩ := hfull p (Nat.le_refl p) hp
    have hz : lengthIsZero (JsonResp.arr (chunk p)) = false := by
      simp [lengthIsZero, List.isEmpty_iff, hne]
    simp only [fetchAllReposV1Go, hpage, hz, Bool.false_eq_true, if_false, jsConcat]
    have ih' := ih (p+1) (acc ++ chunk p) f (by omega)
      (fun q hq1 hq2 => hfull q (by omega) hq2) hlast (by omega)
    rw [ih']
    simp [List.range'_succ]

theorem fetchAllReposV1Go_err {α : Type} (pages : Nat → Except String (JsonResp α))
    (chunk : Nat → List α) (k : Nat) (e : String) :
    ∀ d p acc fuel, p + d = k →
      (∀ q, p ≤ q → q < k → pages q = .ok (.arr (chunk q)) ∧ chunk q ≠ []) →
      pages k = .error e → d < fuel →
      fetchAllReposV1Go pages fuel p acc = some (.error e) := by
  intro d
  induction d with
  | zero =>
    intro p acc fuel hpd _ herr hfuel
    obtain ⟨f, rfl⟩ : ∃ f, fuel = f + 1 := ⟨fuel - 1, by omega⟩
    have hp : p = k := by omega
    subst hp
    simp [fetchAllReposV1Go, herr]
  | succ d ih =>
    intro p acc fuel hpd hfull herr hfuel
    obtain ⟨f, rfl⟩ : ∃ f, fuel = f + 1 := ⟨fuel - 1, by omega⟩
    have hp : p < k := by omega
    obtain ⟨hpage, hne⟩ := hfull p (Nat.le_refl p) hp
    have hz : lengthIsZero (JsonResp.arr (chunk p)) = false := by
      simp [lengthIsZero, List.isEmpty_iff, hne]
    simp only [fetchAllReposV1Go, hpage, hz, Bool.false_eq_true, if_false, jsConcat]
    exact ih (p+1) _ f (by omega) (fun q hq1 hq2 => hfull q (by omega) hq2) herr (by omega)

/-- Claim C1 (amended).  The amended statement: the variant 3 lister returns
the concatenation of all pages in order and stops requesting further pages
exactly when a page returns fewer items than the page size of 100 (including
zero items), and both listers propagate an underlying fetch error with no
retry (each page is requested once, as the request counter in the result
records); the variant 1 lister also returns the concatenation of all pages in
order, but stops only when a page comes back empty, so after a short
non-empty page it issues one further request.
Pages `1..n-1` of size 100 and a short page `n` make variant 3 return the
concatenation of pages `1..n` after exactly `n` requests; an error on page
`k` after full pages surfaces as that error.  Variant 1 with non-empty pages
`1..n-1` and an empty page `n` returns the concatenation of pages `1..n-1`
after exactly `n` requests; an error on page `k` after non-empty pages
surfaces as that error. -/
theorem C1_fetchAllRepos_pagination :
    (∀ (α : Type) (pages : Nat → Except String (JsonResp α)) (chunk : Nat → List α) (n fuel : Nat),
      1 ≤ n →
      (∀ q, 1 ≤ q → q < n → pages q = .ok (.arr (chunk q)) ∧ (chunk q).length = 100) →
      pages n = .ok (.arr (chunk n)) → (chunk n).length < 100 → n ≤ fuel →
      fetchAllReposV3 pages fuel = some (.ok (((List.range' 1 n).map chunk).flatten, n)))
  ∧ (∀ (α : Type) (pages : Nat → Except String (JsonResp α)) (chunk : Nat → List α)
      (k fuel : Nat) (e : String),
      1 ≤ k →
      (∀ q, 1 ≤ q → q < k → pages q = .ok (.arr (chunk q)) ∧ (chunk q).length = 100) →
      pages k = .error e → k ≤ fuel →
      fetchAllReposV3 pages fuel = some (.error e))
  ∧ (∀ (α : Type) (pages : Nat → Except String (JsonResp α)) (chunk : Nat → List α) (n fuel : Nat),
      1 ≤ n →
      (∀ q, 1 ≤ q → q < n → pages q = .ok (.arr (chunk q)) ∧ chunk q ≠ []) →
      pages n = .ok (.arr []) → n ≤ fuel →
      fetchAllReposV1 pages fuel = some (.ok (((List.range' 1 (n-1)).map chunk).flatten, n)))
  ∧ (∀ (α : Type) (pages : Nat → Except String (JsonResp α)) (chunk : Nat → List α)
      (k fuel : Nat) (e : String),
      1 ≤ k →
      (∀ q, 1 ≤ q → q < k → pages q = .ok (.arr (chunk q)) ∧ chunk q ≠ []) →
      pages k = .error e → k ≤ fuel →
      fetchAllReposV1 pages fuel = some (.error e)) := by
  refine ⟨?_, ?_, ?_, ?_⟩
  · intro α pages chunk n fuel h1 hfull hlast hshort hfuel
    have h := fetchAllReposV3Go_run pages chunk n (n-1) 1 [] fuel (by omega)
      (fun q hq1 hq2 => hfull q hq1 hq2) hlast hshort (by omega)
    have hn : n - 1 + 1 = n := by omega
    rw [hn] at h
    simpa [fetchAllReposV3] using h
  · intro α pages chunk k fuel e h1 hfull herr hfuel
    exact fetchAllReposV3Go_err pages chunk k e (k-1) 1 [] fuel (by omega)
      (fun q hq1 hq2 => hfull q hq1 hq2) herr (by omega)
  · intro α pages chunk n fuel h1 hfull hlast hfuel
    have h := fetchAllReposV1Go_run pages chunk n (n-1) 1 [] fuel (by omega)
      (fun q hq1 hq2 => hfull q hq1 hq2) hlast (by omega)
    simpa [fetchAllReposV1] using h
  · intro α pages chunk k fuel e h1 hfull herr hfuel
    exact fetchAllReposV1Go_err pages chunk k e (k-1) 1 [] fuel (by omega)
      (fun q hq1 hq2 => hfull q hq1 hq2) herr (by omega)

theorem C1_fetchAllRepos_pagination_witness :
    fetchAllReposV3 c1WitPages 10 =
      some (.ok (((List.range' 1 2).map c1WitChunk).flatten, 2)) :=
  C1_fetchAllRepos_pagination.1 Nat c1WitPages c1WitChunk 2 10 (by decide)
    (fun q hq1 hq2 => by
      have hq : q = 1 := by omega
      subst hq
      exact ⟨rfl, by simp [c1WitChunk]⟩)
    rfl (by simp [c1WitChunk]) (by decide)

/-- Claim C1, as stated, is false for the variant 1 `fetchAllRepos` (lines
13-27): after page 1 returns only one item the loop does not stop; it
requests page 2 as well (request counter 2, where the claimed behaviour
would stop after 1 request). -/
theorem C1_fetchAllRepos_counterexample :
    fetchAllReposV1 c1CexPages 10 = some (.ok ([7], 2)) ∧
      (some (Except.ok ([7], 2)) : Option (Except String (List Nat × Nat))) ≠
        some (.ok ([7], 1)) := by
  constructor
  · rfl
  · intro h
    simp at h

/-- Claim C10: the variant 1 pagination loop terminates only on a response
whose `length` property equals 0; on any infinite sequence of successful
responses none of which is an empty array (for example, non-array JSON error
bodies, whose `length` is `undefined`), it never terminates, whatever fuel it
is given. -/
theorem C10_v1_nontermination (α : Type) (pages : Nat → Except String (JsonResp α))
    (h : ∀ p, ∃ v, pages p = .ok v ∧ lengthIsZero v = false) (fuel : Nat) :
    fetchAllReposV1 pages fuel = none := by
  suffices hgo : ∀ fuel page acc, fetchAllReposV1Go pages fuel page acc = none by
    exact hgo fuel 1 []
  intro fuel
  induction fuel with
  | zero => intro page acc; rfl
  | succ f ih =>
    intro page acc
    obtain ⟨v, hv, hz⟩ := h page
    simp only [fetchAllReposV1Go, hv, hz, Bool.false_eq_true, if_false]
    exact ih (page+1) (jsConcat acc v)

theorem C10_v1_nontermination_witness :
    fetchAllReposV1 (fun _ => Except.ok (JsonResp.obj 0)) 7 = none :=
  C10_v1_nontermination Nat (fun _ => Except.ok (JsonResp.obj 0))
    (fun _ => ⟨JsonResp.obj 0, rfl, rfl⟩) 7

/-! ## README extraction (claim C2) -/

theorem extractGoV3_stable (ls : List String) (t b : String)
    (h1 : (t != "") = true) (h2 : (b != "") = true) : extractGoV3 ls t b = (t, b) := by
  cases ls with
  | nil => rfl
  | cons l ls' => simp [extractGoV3, h1, h2, bne_iff_ne.mp h1, bne_iff_ne.mp h2]

theorem extractGoV3_step (l : String) (ls : List String) (t b : String) :
    extractGoV3 (l :: ls) t b =
      extractGoV3 ls
        (if t == "" && strStartsWith l "#" then stripHeadingMarker l else t)
        (if b == "" && strStartsWith l "Description:" then stripDescrV3 l else b) := by
  simp only [extractGoV3]
  by_cases hc : ((if t == "" && strStartsWith l "#" then stripHeadingMarker l else t) != "" &&
      (if b == "" && strStartsWith l "Description:" then stripDescrV3 l else b) != "") = true
  · have hc' := Bool.and_eq_true _ _ ▸ hc
    rw [if_pos hc, extractGoV3_stable _ _ _ hc'.1 hc'.2]
  · rw [if_neg hc]

theorem extractGoV3_eq (lines : List String) : ∀ t b,
    extractGoV3 lines t b =
      ((if t != "" then t else (firstHit headingHit lines).getD ""),
       (if b != "" then b else (firstHit descrHitV3 lines).getD "")) := by
  induction lines with
  | nil =>
    intro t b
    rcases eq_or_ne t "" with ht | ht <;> rcases eq_or_ne b "" with hb | hb <;>
      simp [extractGoV3, firstHit, ht, hb]
  | cons l ls ih =>
    intro t b
    rw [extractGoV3_step, ih]
    simp only [Prod.mk.injEq]
    constructor
    · by_cases ht : t = ""
      · by_cases hs : strStartsWith l "#" = true
        · by_cases hv : stripHeadingMarker l = ""
          · simp [ht, hs, hv, firstHit, headingHit]
          · simp [ht, hs, hv, firstHit, headingHit]
        · simp [ht, hs, firstHit, headingHit]
      · simp [ht]
    · by_cases hb : b = ""
      · by_cases hs : strStartsWith l "Description:" = true
        · by_cases hv : stripDescrV3 l = ""
          · simp [hb, hs, hv, firstHit, descrHitV3]
          · simp [hb, hs, hv, firstHit, descrHitV3]
        · simp [hb, hs, firstHit, descrHitV3]
      · simp [hb]

theorem jsTruthyOpt_none : jsTruthyOpt none = false := rfl

theorem jsTruthyOpt_some (s : String) : jsTruthyOpt (some s) = (s != "") := rfl

theorem extractGoV1_stable (ls : List String) (t b : Option String)
    (h1 : jsTruthyOpt t = true) (h2 : jsTruthyOpt b = true) : extractGoV1 ls t b = (t, b) := by
  cases ls with
  | nil => rfl
  | cons l ls' => simp [extractGoV1, h1, h2]

theorem extractGoV1_step (l : String) (ls : List String) (t b : Option String) :
    extractGoV1 (l :: ls) t b =
      extractGoV1 ls
        (if !jsTruthyOpt t && strStartsWith l "#" then some (stripHeadingMarker l) else t)
        (if !jsTruthyOpt b && strStartsWith l "Description:" then some (stripDescrV1 l) else b) := by
  simp only [extractGoV1]
  by_cases hc : (jsTruthyOpt (if !jsTruthyOpt t && strStartsWith l "#" then some (stripHeadingMarker l) else t) &&
      jsTruthyOpt (if !jsTruthyOpt b && strStartsWith l "Description:" then some (stripDescrV1 l) else b)) = true
  · have hc' := Bool.and_eq_true _ _ ▸ hc
    rw [if_pos hc, extractGoV1_stable _ _ _ hc'.1 hc'.2]
  · rw [if_neg hc]

theorem extractGoV1_eq (lines : List String) : ∀ t b,
    extractGoV1 lines t b =
      ((if jsTruthyOpt t then t else
          match firstHit headingHit lines with
          | some v => some v
          | none => if lines.any (fun l => strStartsWith l "#") then some "" else t),
       (if jsTruthyOpt b then b else
          match firstHit descrHitV1 lines with
          | some v => some v
          | none => if lines.any (fun l => strStartsWith l "Description:") then some "" else b)) := by
  induction lines with
  | nil =>
    intro t b
    cases ht : jsTruthyOpt t <;> cases hb : jsTruthyOpt b <;>
      simp [extractGoV1, firstHit, ht, hb]
  | cons l ls ih =>
    intro t b
    rw [extractGoV1_step, ih]
    simp only [Prod.mk.injEq]
    constructor
    · by_cases ht : jsTruthyOpt t = true
      · simp [ht]
      · by_cases hs : strStartsWith l "#" = true
        · by_cases hv : stripHeadingMarker l = ""
          · simp [ht, hs, hv, firstHit, headingHit, jsTruthyOpt_some, List.any_cons]
          · simp [ht, hs, hv, firstHit, headingHit, jsTruthyOpt_some, List.any_cons]
        · simp [ht, hs, firstHit, headingHit, List.any_cons]
    · by_cases hb : jsTruthyOpt b = true
      · simp [hb]
      · by_cases hs : strStartsWith l "Description:" = true
        · by_cases hv : stripDescrV1 l = ""
          · simp [hb, hs, hv, firstHit, descrHitV1, jsTruthyOpt_some, List.any_cons]
          · simp [hb, hs, hv, firstHit, descrHitV1, jsTruthyOpt_some, List.any_cons]
        · simp [hb, hs, firstHit, descrHitV1, List.any_cons]

/-- Claim C2 (amended).  For every README text, extraction scans the lines in
order (stopping once both values are truthy) and returns as title the
stripped text of the first heading line whose stripped text is non-empty,
and as blurb the stripped text of the first `Description:` line whose
stripped text is non-empty — a marker line that strips to the empty text
does not settle the value, so a later marker line can still supply it.  With
no such line the variant 3 value is the empty string, and the variant 1
value is `null` when no marker line occurs at all (and the empty string when
marker lines occur but all strip to empty); a missing README yields empty
(respectively `null`) values.  Extraction is a total function: no exception
is raised. -/
theorem C2_extractTitleAndBlurb (readme : String) :
    extractTitleAndBlurbV3 readme =
      ((firstHit headingHit (splitLines readme)).getD "",
       (firstHit descrHitV3 (splitLines readme)).getD "") ∧
    extractTitleAndBlurbV1 readme =
      (if readme == "" then (none, none)
       else
         (v1ScanValue headingHit (fun l => strStartsWith l "#") (splitLines readme),
          v1ScanValue descrHitV1 (fun l => strStartsWith l "Description:") (splitLines readme))) := by
  constructor
  · rw [extractTitleAndBlurbV3, extractGoV3_eq]
    simp
  · rw [extractTitleAndBlurbV1]
    split
    · rfl
    · rw [extractGoV1_eq]
      simp [v1ScanValue, jsTruthyOpt]

/-- Claim C2, as stated, is false: on the README consisting of the line `#`
followed by the line `# Real`, the first line beginning with `#` stripped of
leading `#` characters and whitespace is the empty string, so the claimed
title is empty — but `extractTitleAndBlurb` (variant 3) returns the title
taken from the second heading line. -/
theorem C2_extract_counterexample :
    extractTitleAndBlurbV3 "#\n# Real" = ("Real", "") ∧
      claimExtract "#\n# Real" = ("", "") ∧
      (("Real", "") : String × String) ≠ ("", "") := by
  refine ⟨by decide, by decide, ?_⟩
  intro h
  simp at h

/-! ## Display title fallback (claim C4) -/

theorem jsOrOS_ne (b : Option String) (c : String) (h : c ≠ "") : jsOrOS b c ≠ "" := by
  cases b with
  | none => simpa [jsOrOS] using h
  | some s => by_cases hs : s = "" <;> simp [jsOrOS, hs, h]

theorem jsOrOOS_ne (a b : Option String) (c : String) (h : c ≠ "") : jsOrOOS a b c ≠ "" := by
  cases a with
  | none => simpa [jsOrOOS] using jsOrOS_ne b c h
  | some s =>
    by_cases hs : s = "" <;> simp [jsOrOOS, hs]
    · exact jsOrOS_ne b c h

theorem jsOrSOS_ne (a : String) (b : Option String) (c : String) (h : c ≠ "") :
    jsOrSOS a b c ≠ "" := by
  by_cases hs : a = "" <;> simp [jsOrSOS, hs]
  exact jsOrOS_ne b c h

/-- Claim C4: for every repository record that reaches rendering, the display
title (`title || description || name` in both the variant 1 enriched record
and the variant 3 featured record) is a non-empty string, provided the
repository name is non-empty. -/
theorem C4_display_title_nonempty (repo : RawRepo) (t : TopicsResp) (ns : List String)
    (readme readme2 : String) (h : repo.name ≠ "") :
    (mkEnrichedV1 repo t readme).title ≠ "" ∧ (mkFeaturedV3 repo ns readme2).title ≠ "" :=
  ⟨jsOrOOS_ne _ _ _ h, jsOrSOS_ne _ _ _ h⟩

theorem C4_display_title_nonempty_witness :
    (mkEnrichedV1 { name := "r", description := none, archived := false }
        { names := some [] } "").title ≠ "" ∧
      (mkFeaturedV3 { name := "r", description := none, archived := false } [] "").title ≠ "" :=
  C4_display_title_nonempty { name := "r", description := none, archived := false }
    { names := some [] } [] "" "" (by decide)

/-! ## Free-form grouping (claim C5) -/

theorem lookupD_nil (k : String) : lookupD ([] : List (String × List α)) k = [] := rfl

theorem lookupD_cons (a : String) (v : List α) (gs : List (String × List α)) (k : String) :
    lookupD ((a, v) :: gs) k = if k = a then v else lookupD gs k := by
  by_cases h : k = a
  · simp [lookupD, List.lookup, h]
  · simp [lookupD, List.lookup, h, (beq_eq_false_iff_ne.mpr h : (k == a) = false)]

theorem lookupD_addToGroup (gs : List (String × List α)) (t : String) (r : α) (k : String) :
    lookupD (addToGroup gs t r) k = lookupD gs k ++ (if k = t then [r] else []) := by
  induction gs with
  | nil =>
    simp only [addToGroup]
    rw [lookupD_cons, lookupD_nil]
    by_cases h : k = t <;> simp [h]
  | cons p gs ih =>
    obtain ⟨a, v⟩ := p
    simp only [addToGroup]
    by_cases hat : a = t
    · rw [if_pos hat]
      subst hat
      rw [lookupD_cons, lookupD_cons]
      by_cases hk : k = a <;> simp [hk]
    · rw [if_neg hat]
      rw [lookupD_cons, lookupD_cons]
      by_cases hk : k = a
      · simp [hk, hat]
      · simp [hk, ih]

theorem mem_keysOf_addToGroup (gs : List (String × List α)) (t : String) (r : α) (k : String) :
    k ∈ keysOf (addToGroup gs t r) ↔ k ∈ keysOf gs ∨ k = t := by
  induction gs with
  | nil => simp [addToGroup, keysOf]
  | cons p gs ih =>
    obtain ⟨a, v⟩ := p
    by_cases hat : a = t
    · subst hat
      simp [addToGroup, keysOf]
      tauto
    · simp only [addToGroup, if_neg hat, keysOf, List.map_cons, List.mem_cons] at ih ⊢
      rw [ih]
      tauto

theorem lookupD_topicsFoldl (r : α) (ts : List String) :
    ∀ gs k, lookupD (ts.foldl (fun gs t => addToGroup gs t r) gs) k =
      lookupD gs k ++ List.replicate (ts.count k) r := by
  induction ts with
  | nil => intro gs k; simp
  | cons t ts ih =>
    intro gs k
    simp only [List.foldl_cons]
    rw [ih, lookupD_addToGroup]
    by_cases hk : k = t
    · subst hk
      simp [List.count_cons, List.append_assoc, List.replicate_succ]
    · simp [List.count_cons, hk, beq_eq_false_iff_ne.mpr (fun hh => hk hh.symm)]

theorem mem_keysOf_topicsFoldl (r : α) (ts : List String) :
    ∀ gs k, k ∈ keysOf (ts.foldl (fun gs t => addToGroup gs t r) gs) ↔
      k ∈ keysOf gs ∨ k ∈ ts := by
  induction ts with
  | nil => intro gs k; simp
  | cons t ts ih =>
    intro gs k
    simp only [List.foldl_cons, List.mem_cons]
    rw [ih, mem_keysOf_addToGroup]
    tauto

theorem lookupD_groupByTopic (rs : List EnrichedV1) (k : String) :
    lookupD (groupByTopic rs) k =
      (rs.map (fun r => List.replicate ((jsGroupNames r.topics).count k) r)).flatten := by
  suffices h : ∀ gs, lookupD (rs.foldl
      (fun gs r => (jsGroupNames r.topics).foldl (fun gs t => addToGroup gs t r) gs) gs) k =
      lookupD gs k ++ (rs.map (fun r => List.replicate ((jsGroupNames r.topics).count k) r)).flatten by
    simpa [groupByTopic, lookupD] using h []
  induction rs with
  | nil => intro gs; simp
  | cons r rs ih =>
    intro gs
    simp only [List.foldl_cons]
    rw [ih, lookupD_topicsFoldl]
    simp [List.append_assoc]

theorem mem_keysOf_groupByTopic (rs : List EnrichedV1) (k : String) :
    k ∈ keysOf (groupByTopic rs) ↔ ∃ r ∈ rs, k ∈ jsGroupNames r.topics := by
  suffices h : ∀ gs, k ∈ keysOf (rs.foldl
      (fun gs r => (jsGroupNames r.topics).foldl (fun gs t => addToGroup gs t r) gs) gs) ↔
      k ∈ keysOf gs ∨ ∃ r ∈ rs, k ∈ jsGroupNames r.topics by
    have h0 := h []
    simpa [groupByTopic, keysOf] using h0
  induction rs with
  | nil => intro gs; simp
  | cons r rs ih =>
    intro gs
    simp only [List.foldl_cons, List.mem_cons]
    rw [ih, mem_keysOf_topicsFoldl]
    constructor
    · rintro ((hg | ht) | ⟨r', hr', hk⟩)
      · exact Or.inl hg
      · exact Or.inr ⟨r, Or.inl rfl, ht⟩
      · exact Or.inr ⟨r', Or.inr hr', hk⟩
    · rintro (hg | ⟨r', hr' | hr', hk⟩)
      · exact Or.inl (Or.inl hg)
      · exact Or.inl (Or.inr (hr' ▸ hk))
      · exact Or.inr ⟨r', hr', hk⟩

theorem mem_jsGroupNames (k : String) (tp : List String) :
    k ∈ jsGroupNames tp ↔ k ∈ tp ∨ (tp = [] ∧ k = "Other") := by
  cases tp with
  | nil => simp [jsGroupNames]
  | cons t ts => simp [jsGroupNames]

/-- Claim C5: in the free-form variant, the set of group keys produced by
`groupByTopic` equals exactly the set of topic strings present across the
input records, together with the synthetic key `Other` exactly when at least
one record carries no topics; and every record with no topics is placed in
the `Other` group. -/
theorem C5_groupByTopic_keys (rs : List EnrichedV1) :
    (∀ k, k ∈ keysOf (groupByTopic rs) ↔
      ((∃ r ∈ rs, k ∈ r.topics) ∨ (k = "Other" ∧ ∃ r ∈ rs, r.topics = []))) ∧
    (∀ r ∈ rs, r.topics = [] → r ∈ lookupD (groupByTopic rs) "Other") := by
  constructor
  · intro k
    rw [mem_keysOf_groupByTopic]
    constructor
    · rintro ⟨r, hr, hk⟩
      rcases (mem_jsGroupNames k r.topics).mp hk with h | ⟨h1, h2⟩
      · exact Or.inl ⟨r, hr, h⟩
      · exact Or.inr ⟨h2, r, hr, h1⟩
    · rintro (⟨r, hr, hk⟩ | ⟨hkO, r, hr, htp⟩)
      · exact ⟨r, hr, (mem_jsGroupNames k r.topics).mpr (Or.inl hk)⟩
      · exact ⟨r, hr, (mem_jsGroupNames k r.topics).mpr (Or.inr ⟨htp, hkO⟩)⟩
  · intro r hr htp
    rw [lookupD_groupByTopic]
    rw [List.mem_flatten]
    refine ⟨List.replicate ((jsGroupNames r.topics).count "Other") r, List.mem_map_of_mem _ hr, ?_⟩
    rw [htp]
    simp [jsGroupNames]

theorem C5_groupByTopic_keys_witness :
    c5WitRepo ∈ lookupD (groupByTopic [c5WitRepo]) "Other" :=
  (C5_groupByTopic_keys [c5WitRepo]).2 c5WitRepo (by simp) rfl

/-! ## Stable sort lemmas (claims C6, C7) -/

theorem mem_insCmp (cmp : α → α → Int) (l : List α) (x a : α) :
    a ∈ insCmp cmp l x ↔ a ∈ l ∨ a = x := by
  induction l with
  | nil => simp [insCmp]
  | cons y ys ih =>
    simp only [insCmp]
    by_cases h : cmp y x ≤ 0
    · rw [if_pos h]
      simp only [List.mem_cons, ih]
      tauto
    · rw [if_neg h]
      simp only [List.mem_cons]
      tauto

theorem mem_jsSortBy (cmp : α → α → Int) (l : List α) (a : α) :
    a ∈ jsSortBy cmp l ↔ a ∈ l := by
  suffices h : ∀ acc, a ∈ l.foldl (insCmp cmp) acc ↔ a ∈ acc ∨ a ∈ l by
    simpa [jsSortBy] using h []
  induction l with
  | nil => intro acc; simp
  | cons y ys ih =>
    intro acc
    simp only [List.foldl_cons, List.mem_cons]
    rw [ih, mem_insCmp]
    tauto

theorem length_insCmp (cmp : α → α → Int) (l : List α) (x : α) :
    (insCmp cmp l x).length = l.length + 1 := by
  induction l with
  | nil => rfl
  | cons y ys ih =>
    simp only [insCmp]
    by_cases h : cmp y x ≤ 0
    · rw [if_pos h]
      simp [ih]
    · rw [if_neg h]
      simp

theorem length_jsSortBy (cmp : α → α → Int) (l : List α) :
    (jsSortBy cmp l).length = l.length := by
  suffices h : ∀ acc, (l.foldl (insCmp cmp) acc).length = acc.length + l.length by
    simpa [jsSortBy] using h []
  induction l with
  | nil => intro acc; simp
  | cons y ys ih =>
    intro acc
    simp only [List.foldl_cons]
    rw [ih, length_insCmp]
    simp only [List.length_cons]
    omega

theorem jsSortBy_eq_nil_iff (cmp : α → α → Int) (l : List α) :
    jsSortBy cmp l = [] ↔ l = [] := by
  constructor
  · intro h
    have := length_jsSortBy cmp l
    rw [h] at this
    exact List.length_eq_zero.mp this.symm
  · rintro rfl
    rfl

theorem pairwise_insCmp (cmp : α → α → Int)
    (htot : ∀ a b, cmp a b ≤ 0 ∨ cmp b a ≤ 0)
    (htrans : ∀ a b c, cmp a b ≤ 0 → cmp b c ≤ 0 → cmp a c ≤ 0) (x : α) (l : List α)
    (hl : l.Pairwise (fun a b => cmp a b ≤ 0)) :
    (insCmp cmp l x).Pairwise (fun a b => cmp a b ≤ 0) := by
  induction l with
  | nil => simp [insCmp]
  | cons y ys ih =>
    rcases List.pairwise_cons.mp hl with ⟨hy, hys⟩
    simp only [insCmp]
    by_cases h : cmp y x ≤ 0
    · rw [if_pos h]
      rw [List.pairwise_cons]
      refine ⟨?_, ih hys⟩
      intro z hz
      rcases (mem_insCmp cmp ys x z).mp hz with hz | rfl
      · exact hy z hz
      · exact h
    · rw [if_neg h]
      rw [List.pairwise_cons]
      have hxy : cmp x y ≤ 0 := (htot y x).resolve_left h
      refine ⟨?_, hl⟩
      intro z hz
      rcases List.mem_cons.mp hz with rfl | hz
      · exact hxy
      · exact htrans x y z hxy (hy z hz)

theorem pairwise_jsSortBy (cmp : α → α → Int)
    (htot : ∀ a b, cmp a b ≤ 0 ∨ cmp b a ≤ 0)
    (htrans : ∀ a b c, cmp a b ≤ 0 → cmp b c ≤ 0 → cmp a c ≤ 0) (l : List α) :
    (jsSortBy cmp l).Pairwise (fun a b => cmp a b ≤ 0) := by
  suffices h : ∀ acc, acc.Pairwise (fun a b => cmp a b ≤ 0) →
      (l.foldl (insCmp cmp) acc).Pairwise (fun a b => cmp a b ≤ 0) by
    exact h [] (List.Pairwise.nil)
  induction l with
  | nil => intro acc hacc; simpa using hacc
  | cons y ys ih =>
    intro acc hacc
    simp only [List.foldl_cons]
    exact ih _ (pairwise_insCmp cmp htot htrans y acc hacc)

/-! ## Fixed-table grouping (claim C6) -/

theorem strAppend_ne_empty (a b : String) (h : a.data ≠ []) : a ++ b ≠ "" := by
  intro hh
  have hd := congrArg String.data hh
  rw [String.data_append] at hd
  simp only [List.append_eq_nil] at hd
  · exact h hd.1

/-- Claim C6: in the fixed-label variant, grouping assigns records only to
the predeclared topic keys of the fixed table; a record whose topic list does
not intersect the table keys appears in no group; and a section is rendered
non-empty exactly when its topic occurs among the input records. -/
theorem C6_fixed_grouping (lc : String → String → Int) (rs : List WorkRepo) :
    keysOf (groupedFixedByDescr lc rs) = TOPIC_LABELS.map Prod.fst ∧
    (∀ r : WorkRepo, (∀ t ∈ TOPIC_LABELS.map Prod.fst, r.topics.contains t = false) →
      ∀ p ∈ groupedFixedByDescr lc rs, r ∉ p.2) ∧
    (∀ p ∈ groupedFixedByDescr lc rs,
      (sectionFixedAll (labelFor p.1) p.2 ≠ "" ↔ ∃ r ∈ rs, p.1 ∈ r.topics)) := by
  refine ⟨?_, ?_, ?_⟩
  · simp [keysOf, groupedFixedByDescr, List.map_map]
  · intro r hnone p hp hmem
    obtain ⟨q, hq, rfl⟩ := List.mem_map.mp hp
    rw [mem_jsSortBy] at hmem
    rcases List.mem_filter.mp hmem with ⟨_, hcon⟩
    have := hnone q.1 (List.mem_map_of_mem Prod.fst hq)
    rw [this] at hcon
    cases hcon
  · intro p hp
    obtain ⟨q, hq, rfl⟩ := List.mem_map.mp hp
    by_cases hfl : rs.filter (fun r => r.topics.contains q.1) = []
    · rw [hfl]
      constructor
      · intro hne
        exact absurd rfl hne
      · rintro ⟨r, hr, ht⟩
        have := List.filter_eq_nil_iff.mp hfl r hr
        simp at this
        exact absurd ht this
    · constructor
      · intro _
        obtain ⟨r, hr⟩ := List.exists_mem_of_ne_nil _ hfl
        rcases List.mem_filter.mp hr with ⟨hrs, hcon⟩
        refine ⟨r, hrs, ?_⟩
        simpa using hcon
      · intro _
        have hlen : (jsSortBy (fun a b => lc a.description b.description)
            (rs.filter (fun r => r.topics.contains q.1))).length ≠ 0 := by
          rw [length_jsSortBy]
          intro h0
          exact hfl (List.length_eq_zero.mp h0)
        rw [sectionFixedAll, if_neg hlen]
        exact strAppend_ne_empty _ _ (by simp)

theorem C6_fixed_grouping_witness :
    c6WitRepo ∉ (("data", ([] : List WorkRepo)) : String × List WorkRepo).2 :=
  (C6_fixed_grouping c6WitLc [c6WitRepo]).2.1 c6WitRepo (by decide)
    ("data", []) (by decide)

/-! ## Group ordering (claim C7) -/

/-- Claim C7: for every group in the output of any variant, the entries
appear in ascending comparator order by the chosen sort field — title in the
free-form listing of variant 1 (which sorts the enriched list before
grouping, and groups preserve the input order) and in the variant 3 featured
listing, and description in the fixed all-workshops listing — provided the
comparator standing in for `localeCompare` is total and transitive.  Order
between tied entries is whatever the stable sort leaves. -/
theorem C7_group_order (lc : String → String → Int)
    (htot : ∀ a b, lc a b ≤ 0 ∨ lc b a ≤ 0)
    (htrans : ∀ a b c, lc a b ≤ 0 → lc b c ≤ 0 → lc a c ≤ 0) :
    (∀ (rs : List EnrichedV1) (k : String),
      (lookupD (groupByTopic (jsSortBy (fun a b => lc a.title b.title) rs)) k).Pairwise
        (fun a b => lc a.title b.title ≤ 0)) ∧
    (∀ (rs : List WorkRepo) (p : String × List WorkRepo), p ∈ groupedFixedByDescr lc rs →
      p.2.Pairwise (fun a b => lc a.description b.description ≤ 0)) ∧
    (∀ (rs : List FeaturedRepo) (p : String × List FeaturedRepo), p ∈ groupedFeaturedV3 lc rs →
      p.2.Pairwise (fun a b => lc a.title b.title ≤ 0)) := by
  refine ⟨?_, ?_, ?_⟩
  · intro rs k
    have htot' : ∀ a b : EnrichedV1, lc a.title b.title ≤ 0 ∨ lc b.title a.title ≤ 0 :=
      fun a b => htot a.title b.title
    have htrans' : ∀ a b c : EnrichedV1,
        lc a.title b.title ≤ 0 → lc b.title c.title ≤ 0 → lc a.title c.title ≤ 0 :=
      fun a b c => htrans a.title b.title c.title
    have hs := pairwise_jsSortBy (fun a b : EnrichedV1 => lc a.title b.title) htot' htrans' rs
    rw [lookupD_groupByTopic]
    rw [List.pairwise_flatten]
    constructor
    · intro l hl
      obtain ⟨r, _, rfl⟩ := List.mem_map.mp hl
      exact List.pairwise_replicate.mpr (Or.inr ((htot r.title r.title).elim id id))
    · rw [List.pairwise_map]
      refine hs.imp ?_
      intro a b hab x hx y hy
      rw [List.mem_replicate] at hx hy
      rw [hx.2, hy.2]
      exact hab
  · intro rs p hp
    obtain ⟨q, _, rfl⟩ := List.mem_map.mp hp
    exact pairwise_jsSortBy _ (fun a b : WorkRepo => htot a.description b.description)
      (fun a b c : WorkRepo => htrans a.description b.description c.description) _
  · intro rs p hp
    obtain ⟨q, _, rfl⟩ := List.mem_map.mp hp
    exact pairwise_jsSortBy _ (fun a b : FeaturedRepo => htot a.title b.title)
      (fun a b c : FeaturedRepo => htrans a.title b.title c.title) _

theorem strCmpInt_le (a b : String) : strCmpInt a b ≤ 0 ↔ a ≤ b := by
  by_cases h1 : a < b
  · simp [strCmpInt, h1, le_of_lt h1]
  · by_cases h2 : b < a
    · simp [strCmpInt, h1, h2, not_le.mpr h2]
    · simp [strCmpInt, h1, h2, not_lt.mp h2]

theorem strCmpInt_tot (a b : String) : strCmpInt a b ≤ 0 ∨ strCmpInt b a ≤ 0 := by
  rcases le_total a b with h | h
  · exact Or.inl ((strCmpInt_le a b).mpr h)
  · exact Or.inr ((strCmpInt_le b a).mpr h)

theorem strCmpInt_trans (a b c : String) (h1 : strCmpInt a b ≤ 0) (h2 : strCmpInt b c ≤ 0) :
    strCmpInt a c ≤ 0 :=
  (strCmpInt_le a c).mpr (le_trans ((strCmpInt_le a b).mp h1) ((strCmpInt_le b c).mp h2))

theorem C7_group_order_witness :
    (lookupD (groupByTopic (jsSortBy (fun a b : EnrichedV1 => strCmpInt a.title b.title)
        c7WitRepos)) "data").Pairwise
      (fun a b : EnrichedV1 => strCmpInt a.title b.title ≤ 0) :=
  (C7_group_order strCmpInt strCmpInt_tot strCmpInt_trans).1 c7WitRepos "data"

/-! ## Archived rendering (claim C8) -/

/-- Claim C8: in every listing of every variant, an archived record renders
with the literal ` (archived)` suffix in its display text and with the style
class `archived` on its anchor, and a non-archived record renders with an
empty class slot and its bare display text (neither mark is added). -/
theorem C8_archived_rendering :
    (∀ r : EnrichedV1,
      (r.archived = true →
        strContains (renderItemV1All r) " (archived)" ∧
        strContains (renderItemV1All r) "class=\"archived\"") ∧
      (r.archived = false →
        renderItemV1All r = "<li><a " ++ "" ++ " href=\"" ++ r.url ++
          "\" target=\"_blank\" rel=\"noopener noreferrer\">" ++ r.title ++ "</a></li>")) ∧
    (∀ r : EnrichedV1,
      (r.archived = true →
        strContains (renderItemV1Feat r) " (archived)" ∧
        strContains (renderItemV1Feat r) "class=\"archived\"") ∧
      (r.archived = false →
        renderItemV1Feat r = "<li>\n  <a " ++ "" ++ " href=\"" ++ r.url ++
          "\" target=\"_blank\" rel=\"noopener noreferrer\">" ++ r.title ++ "</a>\n  " ++
          (if jsTruthyOpt r.blurb then "<p class=\"blurb\">" ++ r.blurb.getD "" ++ "</p>" else "") ++
          "\n</li>")) ∧
    (∀ r : WorkRepo,
      (r.archived = true →
        strContains (renderItemFixedAll r) " (archived)" ∧
        strContains (renderItemFixedAll r) "class=\"archived\"") ∧
      (r.archived = false →
        renderItemFixedAll r = "<li><a " ++ "" ++ " href=\"" ++ r.url ++
          "\" target=\"_blank\" rel=\"noopener noreferrer\">" ++ r.description ++ "</a></li>")) ∧
    (∀ r : FeaturedRepo,
      (r.archived = true →
        strContains (renderItemV3Feat r) " (archived)" ∧
        strContains (renderItemV3Feat r) "class=\"archived\"") ∧
      (r.archived = false →
        renderItemV3Feat r = "<li>\n  <a " ++ "" ++ " href=\"" ++ r.url ++
          "\" target=\"_blank\" rel=\"noopener noreferrer\">" ++ r.title ++ "</a>\n  " ++
          (if r.blurb != "" then "<p class=\"blurb\">" ++ r.blurb ++ "</p>" else "") ++
          "\n</li>")) := by
  refine ⟨?_, ?_, ?_, ?_⟩
  · intro r
    constructor
    · intro h
      constructor
      · refine ⟨("<li><a " ++ "class=\"archived\"" ++ " href=\"" ++ r.url ++
          "\" target=\"_blank\" rel=\"noopener noreferrer\">" ++ r.title).data,
          "</a></li>".data, ?_⟩
        simp [renderItemV1All, h, String.data_append, List.append_assoc]
      · refine ⟨"<li><a ".data,
          (" href=\"" ++ r.url ++ "\" target=\"_blank\" rel=\"noopener noreferrer\">" ++
            r.title ++ " (archived)" ++ "</a></li>").data, ?_⟩
        simp [renderItemV1All, h, String.data_append, List.append_assoc]
    · intro h
      simp [renderItemV1All, h]
  · intro r
    constructor
    · intro h
      constructor
      · refine ⟨("<li>\n  <a " ++ "class=\"archived\"" ++ " href=\"" ++ r.url ++
          "\" target=\"_blank\" rel=\"noopener noreferrer\">" ++ r.title).data,
          ("</a>\n  " ++
            (if jsTruthyOpt r.blurb then "<p class=\"blurb\">" ++ r.blurb.getD "" ++ "</p>" else "") ++
            "\n</li>").data, ?_⟩
        simp [renderItemV1Feat, h, String.data_append, List.append_assoc]
      · refine ⟨"<li>\n  <a ".data,
          (" href=\"" ++ r.url ++ "\" target=\"_blank\" rel=\"noopener noreferrer\">" ++
            r.title ++ " (archived)" ++ "</a>\n  " ++
            (if jsTruthyOpt r.blurb then "<p class=\"blurb\">" ++ r.blurb.getD "" ++ "</p>" else "") ++
            "\n</li>").data, ?_⟩
        simp [renderItemV1Feat, h, String.data_append, List.append_assoc]
    · intro h
      simp [renderItemV1Feat, h]
  · intro r
    constructor
    · intro h
      constructor
      · refine ⟨("<li><a " ++ "class=\"archived\"" ++ " href=\"" ++ r.url ++
          "\" target=\"_blank\" rel=\"noopener noreferrer\">" ++ r.description).data,
          "</a></li>".data, ?_⟩
        simp [renderItemFixedAll, h, String.data_append, List.append_assoc]
      · refine ⟨"<li><a ".data,
          (" href=\"" ++ r.url ++ "\" target=\"_blank\" rel=\"noopener noreferrer\">" ++
            r.description ++ " (archived)" ++ "</a></li>").data, ?_⟩
        simp [renderItemFixedAll, h, String.data_append, List.append_assoc]
    · intro h
      simp [renderItemFixedAll, h]
  · intro r
    constructor
    · intro h
      constructor
      · refine ⟨("<li>\n  <a " ++ "class=\"archived\"" ++ " href=\"" ++ r.url ++
          "\" target=\"_blank\" rel=\"noopener noreferrer\">" ++ r.title).data,
          ("</a>\n  " ++
            (if r.blurb != "" then "<p class=\"blurb\">" ++ r.blurb ++ "</p>" else "") ++
            "\n</li>").data, ?_⟩
        simp [renderItemV3Feat, h, String.data_append, List.append_assoc]
      · refine ⟨"<li>\n  <a ".data,
          (" href=\"" ++ r.url ++ "\" target=\"_blank\" rel=\"noopener noreferrer\">" ++
            r.title ++ " (archived)" ++ "</a>\n  " ++
            (if r.blurb != "" then "<p class=\"blurb\">" ++ r.blurb ++ "</p>" else "") ++
            "\n</li>").data, ?_⟩
        simp [renderItemV3Feat, h, String.data_append, List.append_assoc]
    · intro h
      simp [renderItemV3Feat, h]

theorem C8_archived_rendering_witness :
    strContains (renderItemV1All c8WitRepo) " (archived)" ∧
      strContains (renderItemV1All c8WitRepo) "class=\"archived\"" :=
  (C8_archived_rendering.1 c8WitRepo).1 rfl

/-! ## Enrichment loop characterisation (claims C3, C9) -/

theorem enrichAllV3Go_eq (topicsOf : String → FetchOutcome TopicsResp) (repos : List RawRepo) :
    ∀ en calls warns, enrichAllV3Go topicsOf repos en calls warns =
      (en ++ repos.filterMap (enrichSelV3 topicsOf),
       calls ++ (repos.filter (fun r => jsTruthyOpt r.description)).map (fun r => r.name),
       warns ++ repos.filterMap (skipWarnSelV3 topicsOf)) := by
  induction repos with
  | nil => intro en calls warns; simp [enrichAllV3Go]
  | cons repo rest ih =>
    intro en calls warns
    rcases hd : repo.description with _ | d
    · simp only [enrichAllV3Go, hd]
      rw [ih]
      simp [enrichSelV3, skipWarnSelV3, hd, jsTruthyOpt, List.filterMap_cons, List.filter_cons]
    · by_cases hde : (d == "") = true
      · have hd0 : d = "" := by simpa using hde
        simp only [enrichAllV3Go, hd, if_pos hde]
        rw [ih]
        simp [enrichSelV3, skipWarnSelV3, hd, hd0, jsTruthyOpt, List.filterMap_cons, List.filter_cons]
      · have hd0 : d ≠ "" := by simpa using hde
        rcases hf : fetchRepoTopicsV3 topicsOf repo.name with e | t
        · simp only [enrichAllV3Go, hd, if_neg hde, hf]
          rw [ih]
          simp [enrichSelV3, skipWarnSelV3, hd, hde, hd0, jsTruthyOpt, hf, List.filterMap_cons, List.filter_cons]
        · rcases hn : t.names with _ | ns
          · simp only [enrichAllV3Go, hd, if_neg hde, hf, hn]
            rw [ih]
            simp [enrichSelV3, skipWarnSelV3, hd, hde, hd0, jsTruthyOpt, hf, hn, List.filterMap_cons, List.filter_cons]
          · by_cases hc : ns.contains "workshop" = true
            · have hm : "workshop" ∈ ns := by simpa using hc
              simp only [enrichAllV3Go, hd, if_neg hde, hf, hn, if_pos hc]
              rw [ih]
              simp [enrichSelV3, skipWarnSelV3, hd, hde, hd0, jsTruthyOpt, hf, hn, hc, hm,
                List.filterMap_cons, List.filter_cons]
            · have hm : ¬"workshop" ∈ ns := by simpa using hc
              simp only [enrichAllV3Go, hd, if_neg hde, hf, hn, if_neg hc]
              rw [ih]
              simp [enrichSelV3, skipWarnSelV3, hd, hde, hd0, jsTruthyOpt, hf, hn, hc, hm,
                List.filterMap_cons, List.filter_cons]

theorem enrichAllV3_eq (repos : List RawRepo) (topicsOf : String → FetchOutcome TopicsResp) :
    enrichAllV3 repos topicsOf =
      (repos.filterMap (enrichSelV3 topicsOf),
       (repos.filter (fun r => jsTruthyOpt r.description)).map (fun r => r.name),
       repos.filterMap (skipWarnSelV3 topicsOf)) := by
  simpa [enrichAllV3] using enrichAllV3Go_eq topicsOf repos [] [] []

theorem enrichAllV2Go_eq (topicsOf : String → FetchOutcome TopicsResp) (repos : List RawRepo) :
    ∀ en calls warns, enrichAllV2Go topicsOf repos en calls warns =
      (en ++ repos.filterMap (enrichSelV2 topicsOf),
       calls ++ (repos.filter (fun r => jsTruthyOpt r.description)).map (fun r => r.name),
       warns ++ repos.filterMap (skipWarnSelV3 topicsOf)) := by
  induction repos with
  | nil => intro en calls warns; simp [enrichAllV2Go]
  | cons repo rest ih =>
    intro en calls warns
    rcases hd : repo.description with _ | d
    · simp only [enrichAllV2Go, hd]
      rw [ih]
      simp [enrichSelV2, skipWarnSelV3, hd, jsTruthyOpt, List.filterMap_cons, List.filter_cons]
    · by_cases hde : (d == "") = true
      · have hd0 : d = "" := by simpa using hde
        simp only [enrichAllV2Go, hd, if_pos hde]
        rw [ih]
        simp [enrichSelV2, skipWarnSelV3, hd, hd0, jsTruthyOpt, List.filterMap_cons, List.filter_cons]
      · have hd0 : d ≠ "" := by simpa using hde
        rcases hf : fetchRepoTopicsV3 topicsOf repo.name with e | t
        · simp only [enrichAllV2Go, hd, if_neg hde, hf]
          rw [ih]
          simp [enrichSelV2, skipWarnSelV3, hd, hde, hd0, jsTruthyOpt, hf, List.filterMap_cons, List.filter_cons]
        · simp only [enrichAllV2Go, hd, if_neg hde, hf]
          rw [ih]
          simp [enrichSelV2, skipWarnSelV3, hd, hde, hd0, jsTruthyOpt, hf, List.filterMap_cons, List.filter_cons]

theorem enrichAllV2_eq (repos : List RawRepo) (topicsOf : String → FetchOutcome TopicsResp) :
    enrichAllV2 repos topicsOf =
      (repos.filterMap (enrichSelV2 topicsOf),
       (repos.filter (fun r => jsTruthyOpt r.description)).map (fun r => r.name),
       repos.filterMap (skipWarnSelV3 topicsOf)) := by
  simpa [enrichAllV2] using enrichAllV2Go_eq topicsOf repos [] [] []

theorem enrichSelV3_desc (topicsOf : String → FetchOutcome TopicsResp) (repo : RawRepo)
    (x : WorkRepo) (h : enrichSelV3 topicsOf repo = some x) :
    repo.description = some x.description ∧ x.description ≠ "" := by
  rcases hd : repo.description with _ | d
  · simp only [enrichSelV3, hd] at h
    cases h
  · simp only [enrichSelV3, hd] at h
    by_cases hde : (d == "") = true
    · rw [if_pos hde] at h
      cases h
    · rw [if_neg hde] at h
      rcases hf : fetchRepoTopicsV3 topicsOf repo.name with e | t
      · simp only [hf] at h
        cases h
      · simp only [hf] at h
        rcases hn : t.names with _ | ns
        · simp only [hn] at h
          cases h
        · simp only [hn] at h
          by_cases hc : ns.contains "workshop" = true
          · rw [if_pos hc] at h
            cases h
            exact ⟨rfl, by simpa [mkWorkRepo] using hde⟩
          · rw [if_neg hc] at h
            cases h

theorem enrichSelV2_desc (topicsOf : String → FetchOutcome TopicsResp) (repo : RawRepo)
    (x : WorkRepo) (h : enrichSelV2 topicsOf repo = some x) :
    repo.description = some x.description ∧ x.description ≠ "" := by
  rcases hd : repo.description with _ | d
  · simp only [enrichSelV2, hd] at h
    cases h
  · simp only [enrichSelV2, hd] at h
    by_cases hde : (d == "") = true
    · rw [if_pos hde] at h
      cases h
    · rw [if_neg hde] at h
      rcases hf : fetchRepoTopicsV3 topicsOf repo.name with e | t
      · simp only [hf] at h
        cases h
      · simp only [hf] at h
        cases h
        exact ⟨rfl, by simpa [mkWorkRepo] using hde⟩

/-- Claim C9: in the variants that apply the description filter (variants 2
and 3), a repository whose description is absent, `null` or empty is skipped
before any topic fetch occurs — the list of names for which a topic fetch is
issued is exactly the truthy-description repositories — and it contributes no
enriched record, so it appears in no rendered group: every enriched record
(and every entry of every rendered group) carries the non-empty description
of some input repository. -/
theorem C9_description_filter (repos : List RawRepo)
    (topicsOf : String → FetchOutcome TopicsResp) :
    ((enrichAllV3 repos topicsOf).2.1 =
      (repos.filter (fun r => jsTruthyOpt r.description)).map (fun r => r.name)) ∧
    ((enrichAllV2 repos topicsOf).2.1 =
      (repos.filter (fun r => jsTruthyOpt r.description)).map (fun r => r.name)) ∧
    (∀ x ∈ (enrichAllV3 repos topicsOf).1,
      ∃ r ∈ repos, r.description = some x.description ∧ x.description ≠ "") ∧
    (∀ x ∈ (enrichAllV2 repos topicsOf).1,
      ∃ r ∈ repos, r.description = some x.description ∧ x.description ≠ "") ∧
    (∀ (lc : String → String → Int) p, p ∈ groupedFixedByDescr lc (enrichAllV3 repos topicsOf).1 →
      ∀ x ∈ p.2, x.description ≠ "") := by
  have h3 : ∀ x ∈ (enrichAllV3 repos topicsOf).1,
      ∃ r ∈ repos, r.description = some x.description ∧ x.description ≠ "" := by
    intro x hx
    rw [enrichAllV3_eq] at hx
    obtain ⟨r, hr, hsel⟩ := List.mem_filterMap.mp hx
    exact ⟨r, hr, enrichSelV3_desc topicsOf r x hsel⟩
  refine ⟨?_, ?_, h3, ?_, ?_⟩
  · rw [enrichAllV3_eq]
  · rw [enrichAllV2_eq]
  · intro x hx
    rw [enrichAllV2_eq] at hx
    obtain ⟨r, hr, hsel⟩ := List.mem_filterMap.mp hx
    exact ⟨r, hr, enrichSelV2_desc topicsOf r x hsel⟩
  · intro lc p hp x hx
    obtain ⟨q, _, rfl⟩ := List.mem_map.mp hp
    rw [mem_jsSortBy] at hx
    rcases List.mem_filter.mp hx with ⟨hxe, _⟩
    obtain ⟨r, _, _, hne⟩ := h3 x hxe
    exact hne

theorem C9_description_filter_witness :
    ∃ r ∈ c9WitRepos, r.description = some c9WitEnr.description ∧ c9WitEnr.description ≠ "" :=
  (C9_description_filter c9WitRepos c9WitTopics).2.2.1 c9WitEnr (by decide)

/-! ## Error handling (claim C3) -/

theorem enrichLoopV1_err (topicsOf : String → FetchOutcome TopicsResp)
    (readmeOf : String → FetchOutcome ReadmeResp) (repos : List RawRepo) :
    ∀ en fe,
      (∃ r ∈ repos, (∃ e, topicsOf r.name = .reject e) ∨ (∃ e, readmeOf r.name = .reject e)) →
      ∃ e, enrichLoopV1 topicsOf readmeOf repos en fe = .error e := by
  induction repos with
  | nil =>
    intro en fe h
    obtain ⟨r, hr, _⟩ := h
    cases hr
  | cons repo rest ih =>
    intro en fe h
    rcases ht : fetchRepoTopicsV1 topicsOf repo.name with e | t
    · exact ⟨e, by simp only [enrichLoopV1, ht]⟩
    · rcases hrd : fetchRepoReadmeV1 readmeOf repo.name with e | readme
      · exact ⟨e, by simp only [enrichLoopV1, ht, hrd]⟩
      · have hnt : ∀ e, topicsOf repo.name ≠ .reject e := by
          intro e he
          simp only [fetchRepoTopicsV1, he] at ht
          exact Except.noConfusion ht
        have hnr : ∀ e, readmeOf repo.name ≠ .reject e := by
          intro e he
          simp only [fetchRepoReadmeV1, he] at hrd
          exact Except.noConfusion hrd
        obtain ⟨r, hrm, hcase⟩ := h
        rcases List.mem_cons.mp hrm with rfl | hrest
        · rcases hcase with ⟨e, he⟩ | ⟨e, he⟩
          · exact absurd he (hnt e)
          · exact absurd he (hnr e)
        · simp only [enrichLoopV1, ht, hrd]
          exact ih _ _ ⟨r, hrest, hcase⟩

/-- Claim C3 (amended).  In the variant 3 pipeline, a per-repository topic
fetch failure is caught and logged (a `Skipping ...` warning) and that
repository is skipped — treated as contributing no data, while the other
repositories are still processed — and a README fetch failure (transport
rejection, HTTP error status, or missing `content` field) is caught, logged,
and treated as an empty README; once the listing has succeeded the variant 3
run never aborts and writes both output files.  In the variant 1 pipeline a
non-2xx topic or README response is silently treated as no data (`names: []`
or an empty README), but a transport-level rejection of either
per-repository fetch escapes and aborts the whole run with nothing written.
Any failure of the top-level repository listing aborts the whole run, in
both pipelines, with a logged message and a non-zero exit code before any
output file is written. -/
theorem C3_error_handling :
    (∀ (repos : List RawRepo) topicsOf readmeOf nr (lc : String → String → Int),
      (mainV3 (.ok repos) topicsOf readmeOf nr lc).err = none ∧
      (mainV3 (.ok repos) topicsOf readmeOf nr lc).writes.map Prod.fst =
        ["all_test.html", "featured_workshops.html"]) ∧
    (∀ (repos : List RawRepo) topicsOf readmeOf nr (lc : String → String → Int)
      (r : RawRepo) (e : String), r ∈ repos →
      jsTruthyOpt r.description = true → fetchRepoTopicsV3 topicsOf r.name = .error e →
      skipWarn r.name e ∈ (mainV3 (.ok repos) topicsOf readmeOf nr lc).warns) ∧
    (∀ (e : String) topicsOf readmeOf nr (lc : String → String → Int),
      mainV3 (.error e) topicsOf readmeOf nr lc =
        { writes := [], err := some e, warns := [] }) ∧
    (∀ (e : String) topicsOf readmeOf (lc : String → String → Int),
      mainV1 (.error e) topicsOf readmeOf lc =
        { writes := [], err := some e, warns := [] }) ∧
    (∀ (topicsOf : String → FetchOutcome TopicsResp) (name : String) (st : Nat),
      topicsOf name = .notOk st →
      fetchRepoTopicsV1 topicsOf name = .ok { names := some [] }) ∧
    (∀ (readmeOf : String → FetchOutcome ReadmeResp) (name e : String),
      readmeOf name = .reject e →
      fetchRepoReadmeV3 readmeOf name = ("", [readmeWarn name e])) ∧
    (∀ (repos : List RawRepo) (topicsOf : String → FetchOutcome TopicsResp),
      (enrichAllV3 repos topicsOf).1 = repos.filterMap (enrichSelV3 topicsOf)) ∧
    (∀ (readmeOf : String → FetchOutcome ReadmeResp) (name : String) (st : Nat),
      readmeOf name = .notOk st →
      fetchRepoReadmeV1 readmeOf name = .ok "") ∧
    (∀ (readmeOf : String → FetchOutcome ReadmeResp) (name : String) (st : Nat),
      readmeOf name = .notOk st →
      fetchRepoReadmeV3 readmeOf name =
        ("", [readmeWarn name ("HTTP " ++ toString st ++ ": " ++ readmeUrl name)])) ∧
    (∀ (readmeOf : String → FetchOutcome ReadmeResp) (name : String),
      readmeOf name = .ok { content := none } →
      fetchRepoReadmeV3 readmeOf name = ("", [readmeWarn name "TypeError"])) ∧
    (∀ (repos : List RawRepo) topicsOf readmeOf (lc : String → String → Int),
      (∃ r ∈ repos, (∃ e, topicsOf r.name = .reject e) ∨ (∃ e, readmeOf r.name = .reject e)) →
      ∃ e, mainV1 (.ok repos) topicsOf readmeOf lc =
        { writes := [], err := some e, warns := [] }) := by
  refine ⟨?_, ?_, ?_, ?_, ?_, ?_, ?_, ?_, ?_, ?_, ?_⟩
  · intro repos topicsOf readmeOf nr lc
    constructor
    · simp [mainV3]
    · simp [mainV3]
  · intro repos topicsOf readmeOf nr lc r e hr htr hf
    have hwarn : skipWarnSelV3 topicsOf r = some (skipWarn r.name e) := by
      rcases hd : r.description with _ | d
      · rw [hd] at htr
        simp [jsTruthyOpt] at htr
      · have hd0 : (d == "") = false := by
          rw [hd] at htr
          simp [jsTruthyOpt] at htr
          simpa using htr
        simp [skipWarnSelV3, hd, hd0, hf]
    have hmem : skipWarn r.name e ∈ (enrichAllV3 repos topicsOf).2.2 := by
      rw [enrichAllV3_eq]
      exact List.mem_filterMap.mpr ⟨r, hr, hwarn⟩
    simp only [mainV3]
    exact List.mem_append.mpr (Or.inl (List.mem_append.mpr (Or.inl hmem)))
  · intro e topicsOf readmeOf nr lc
    rfl
  · intro e topicsOf readmeOf lc
    rfl
  · intro topicsOf name st h
    simp [fetchRepoTopicsV1, h]
  · intro readmeOf name e h
    simp [fetchRepoReadmeV3, fetchJSONAt, h]
  · intro repos topicsOf
    rw [enrichAllV3_eq]
  · intro readmeOf name st h
    simp [fetchRepoReadmeV1, h]
  · intro readmeOf name st h
    simp [fetchRepoReadmeV3, fetchJSONAt, h]
  · intro readmeOf name h
    simp [fetchRepoReadmeV3, fetchJSONAt, h]
  · intro repos topicsOf readmeOf lc h
    obtain ⟨e, he⟩ := enrichLoopV1_err topicsOf readmeOf repos [] [] h
    exact ⟨e, by simp only [mainV1, he]⟩

theorem C3_error_handling_witness :
    skipWarn "s1" "oops" ∈
      (mainV3 (.ok c3WitRepos) c3WitTopics c3CexReadme (.ok "") c3CexLc).warns :=
  C3_error_handling.2.1 c3WitRepos c3WitTopics c3CexReadme (.ok "") c3CexLc
    { name := "s1", description := some "E1", archived := false } "oops"
    (by decide) (by decide) rfl

/-- Claim C3, as stated, is false for the variant 1 pipeline: with two
repositories and a transport-level rejection of the first topic fetch, the
whole run aborts (non-zero exit, nothing written) instead of treating the
failure as no data for that repository and processing the other one. -/
theorem C3_error_handling_counterexample :
    (mainV1 (.ok c3CexRepos) c3CexTopics c3CexReadme c3CexLc).err = some "boom" ∧
      (mainV1 (.ok c3CexRepos) c3CexTopics c3CexReadme c3CexLc).writes = [] := by
  constructor
  · rfl
  · rfl

end SiteGen
